import Mathlib

/-!
Shallow embedding of the OttoCook cooking-orchestrator core (Go), covering the
parts of the code the verified claims are about:

* the domain data model (`internal/domain`): sessions, step states, timer
  states, recipes and steps;
* the session state machine (`internal/engine/engine.go`): `StartSession`,
  `Advance`, `Skip`, `Pause`, `Resume`, `Abandon`, `StartPendingTimers`,
  `DismissTimer`, `maybeStartTimer`;
* the background timer supervisor (`internal/timer/supervisor.go`):
  `processSession` (both passes), `escalationMessage`, `formatRemaining`,
  with the tick loop modelled as iteration of `processSession` at times
  spaced by the tick interval;
* the speech dispatcher's priority queue (`internal/speech/mouth.go`):
  `dequeue` and the worker's drain loop;
* the recipe-mutation applier (`internal/gpt/apply.go`): `addStep`,
  `removeStep`, `updateStep`.

Conventions of the embedding:

* `time.Time` and `time.Duration` are modelled as `Int` (a fixed unit;
  one second per unit is the reading used for the supervisor defaults).
  The Go zero `time.Time` (`IsZero()`) is modelled as the integer `0`.
* Go maps (`map[int]*StepState`, `map[string]*TimerState`) are modelled as
  association lists; in-place mutation through a pointer is modelled as
  replacing the value at the key.  Go map iteration order is unspecified;
  the list order is one admissible order, and all mapped operations are
  pointwise per key.
* A Go nil-pointer dereference / out-of-bounds index (a panic) is modelled
  by an operation returning `none`.
* Saving to the in-memory session store is the identity on the value, so
  each engine operation returns the session as it is stored after the call
  together with the returned error (if any).
-/

namespace OttoSpec

/-! ### Association-list maps (the embedding of Go maps) -/

/-- Lookup in an association list: the value at the first matching key. -/
def alookup {α β : Type} [DecidableEq α] : List (α × β) → α → Option β
  | [], _ => none
  | (k, v) :: rest, key => if k = key then some v else alookup rest key

/-- Map assignment `m[key] = v`: replace the first binding of `key`, or
append a new binding when the key is absent. -/
def ainsert {α β : Type} [DecidableEq α] : List (α × β) → α → β → List (α × β)
  | [], key, v => [(key, v)]
  | (k, w) :: rest, key, v =>
    if k = key then (key, v) :: rest else (k, w) :: ainsert rest key v

/-- Apply `f` to every value of the map (a `for … range` loop that mutates
each entry through its pointer). -/
def amap {α β : Type} (f : β → β) : List (α × β) → List (α × β) :=
  List.map (fun kv => (kv.1, f kv.2))

/-! ### Domain data model (`internal/domain`) -/

/-- `domain.SessionStatus`. -/
inductive SessionStatus where
  | active | paused | completed | abandoned
  deriving DecidableEq, Repr

/-- `domain.StepStatus`. -/
inductive StepStatus where
  | pending | active | done | skipped
  deriving DecidableEq, Repr

/-- `domain.TimerStatus`. -/
inductive TimerStatus where
  | pending | running | paused | fired | dismissed
  deriving DecidableEq, Repr

/-- `domain.StepState`. -/
structure StepState where
  status : StepStatus
  startedAt : Int
  completedAt : Int
  deriving DecidableEq, Repr

/-- `domain.TimerState`. -/
structure TimerState where
  id : String
  stepId : String
  label : String
  duration : Int
  remaining : Int
  status : TimerStatus
  lastNotified : Int
  lastRemindedAt : Int
  warnedAlmost : Bool
  escalationLevel : Int
  deriving DecidableEq, Repr

/-- `domain.TimerConfig`. -/
structure TimerConfig where
  duration : Int
  label : String
  deriving DecidableEq, Repr

/-- `domain.ConditionType`. -/
inductive ConditionType where
  | manual | time | visual | temperature
  deriving DecidableEq, Repr

/-- `domain.StepCondition`. -/
structure StepCondition where
  type : ConditionType
  description : String
  deriving DecidableEq, Repr

/-- `domain.Step`. -/
structure Step where
  id : String
  order : Int
  instruction : String
  duration : Int
  conditions : List StepCondition
  parallelHints : List String
  timerConfig : Option TimerConfig
  deriving DecidableEq, Repr

/-- `domain.Ingredient`.  Go's `Quantity float64` is modelled as `Int`;
no claim depends on fractional quantities. -/
structure Ingredient where
  name : String
  quantity : Int
  unit : String
  sizeDescriptor : String
  optional : Bool
  deriving DecidableEq, Repr

/-- `domain.Recipe`. -/
structure Recipe where
  id : String
  name : String
  description : String
  servings : Int
  ingredients : List Ingredient
  steps : List Step
  tags : List String
  version : Int
  deriving DecidableEq, Repr

/-- `domain.Session`.  The two Go maps are association lists. -/
structure Session where
  id : String
  recipeId : String
  recipeName : String
  servings : Int
  currentStepIndex : Nat
  stepStates : List (Nat × StepState)
  timerStates : List (String × TimerState)
  status : SessionStatus
  startedAt : Int
  updatedAt : Int
  deriving DecidableEq, Repr

/-- The sentinel error kinds of `internal/domain/errors.go` together with the
non-sentinel errors `DismissTimer` builds with `fmt.Errorf`. -/
inductive EngErr where
  | notFound
  | sessionNotActive
  | sessionPaused
  | noMoreSteps
  | alreadyExists
  | notImplemented
  | timerNotFound
  | timerNotDismissable
  deriving DecidableEq, Repr

/-- The message of each sentinel error (`errors.New(...)` in errors.go). -/
def errMessage : EngErr → String
  | .notFound => "not found"
  | .sessionNotActive => "session is not active"
  | .sessionPaused => "session is paused"
  | .noMoreSteps => "no more steps in recipe"
  | .alreadyExists => "already exists"
  | .notImplemented => "not implemented"
  | .timerNotFound => "timer not found"
  | .timerNotDismissable => "timer cannot be dismissed"

/-! ### Engine (session state machine), `internal/engine/engine.go`

Each operation takes the session currently in the store (and the recipe the
session refers to, where the Go code loads it from the recipe source) and
returns the session as stored after the call paired with the returned
error.  `Advance`/`Skip`/`StartSession` return `none` when the Go code would
panic (nil map entry dereference or out-of-bounds slice index). -/

namespace Engine

/-- The timer state `Engine.maybeStartTimer` materializes for a step with a
timer config: id "timer-"+stepID, remaining = duration, status pending. -/
def pendingTimer (step : Step) (tc : TimerConfig) : TimerState :=
  { id := "timer-" ++ step.id
    stepId := step.id
    label := tc.label
    duration := tc.duration
    remaining := tc.duration
    status := .pending
    lastNotified := 0
    lastRemindedAt := 0
    warnedAlmost := false
    escalationLevel := 0 }

/-- `Engine.maybeStartTimer`: create a pending timer for a step with a
timer config; a no-op otherwise.  The map assignment overwrites an existing
binding of the same timer id. -/
def maybeStartTimer (session : Session) (step : Step) : Session :=
  match step.timerConfig with
  | none => session
  | some tc =>
    { session with
      timerStates := ainsert session.timerStates ("timer-" ++ step.id)
        (pendingTimer step tc) }

/-- `Engine.StartSession`.  `id` stands for the random `generateID()`;
`defaultServings` is the engine's configured default (2 by default).
Returns `none` when the recipe has no steps: the Go code then dereferences
the nil `StepStates[0]` entry and indexes `recipe.Steps[0]` out of bounds. -/
def startSession (recipe : Recipe) (defaultServings : Int) (id : String)
    (servings : Int) (now : Int) : Option Session :=
  let servings := if servings ≤ 0 then defaultServings else servings
  let session : Session :=
    { id := id
      recipeId := recipe.id
      recipeName := recipe.name
      servings := servings
      currentStepIndex := 0
      stepStates := (List.range recipe.steps.length).map
        (fun i => (i, { status := .pending, startedAt := 0, completedAt := 0 }))
      timerStates := []
      status := .active
      startedAt := now
      updatedAt := now }
  match alookup session.stepStates 0 with
  | none => none
  | some st0 =>
    let session := { session with
      stepStates := ainsert session.stepStates 0
        { st0 with status := .active, startedAt := now } }
    match recipe.steps.get? 0 with
    | none => none
    | some step0 => some (maybeStartTimer session step0)

/-- `Engine.Advance`.  On success the pair is the stored session and `none`;
the step the Go code returns is the recipe step at the new current index. -/
def advance (recipe : Recipe) (session : Session) (now : Int) :
    Option (Session × Option EngErr) :=
  if session.status ≠ .active then some (session, some .sessionNotActive)
  else
    match alookup session.stepStates session.currentStepIndex with
    | none => none
    | some current =>
      let states₁ := ainsert session.stepStates session.currentStepIndex
        { current with status := .done, completedAt := now }
      let nextIdx := session.currentStepIndex + 1
      if nextIdx ≥ recipe.steps.length then
        some ({ session with
                  stepStates := states₁
                  status := .completed
                  updatedAt := now }, some .noMoreSteps)
      else
        match alookup states₁ nextIdx with
        | none => none
        | some nextState =>
          let states₂ := ainsert states₁ nextIdx
            { nextState with status := .active, startedAt := now }
          match recipe.steps.get? nextIdx with
          | none => none
          | some step =>
            some (maybeStartTimer
              { session with
                  stepStates := states₂
                  currentStepIndex := nextIdx
                  updatedAt := now } step, none)

/-- `Engine.Skip`: identical to `Advance` except the current step's final
status is `skipped`. -/
def skip (recipe : Recipe) (session : Session) (now : Int) :
    Option (Session × Option EngErr) :=
  if session.status ≠ .active then some (session, some .sessionNotActive)
  else
    match alookup session.stepStates session.currentStepIndex with
    | none => none
    | some current =>
      let states₁ := ainsert session.stepStates session.currentStepIndex
        { current with status := .skipped, completedAt := now }
      let nextIdx := session.currentStepIndex + 1
      if nextIdx ≥ recipe.steps.length then
        some ({ session with
                  stepStates := states₁
                  status := .completed
                  updatedAt := now }, some .noMoreSteps)
      else
        match alookup states₁ nextIdx with
        | none => none
        | some nextState =>
          let states₂ := ainsert states₁ nextIdx
            { nextState with status := .active, startedAt := now }
          match recipe.steps.get? nextIdx with
          | none => none
          | some step =>
            some (maybeStartTimer
              { session with
                  stepStates := states₂
                  currentStepIndex := nextIdx
                  updatedAt := now } step, none)

/-- `Engine.Pause`: fails unless the session is active; sets it paused and
turns every running timer paused. -/
def pause (session : Session) (now : Int) : Session × Option EngErr :=
  if session.status ≠ .active then (session, some .sessionNotActive)
  else
    ({ session with
        status := .paused
        updatedAt := now
        timerStates := amap
          (fun ts => if ts.status = .running then { ts with status := .paused } else ts)
          session.timerStates }, none)

/-- `Engine.Resume`: fails (with the `ErrSessionPaused` sentinel) unless the
session is paused; sets it active and turns every paused timer running. -/
def resume (session : Session) (now : Int) : Session × Option EngErr :=
  if session.status ≠ .paused then (session, some .sessionPaused)
  else
    ({ session with
        status := .active
        updatedAt := now
        timerStates := amap
          (fun ts => if ts.status = .paused then { ts with status := .running } else ts)
          session.timerStates }, none)

/-- `Engine.Abandon`: marks the session abandoned unconditionally. -/
def abandon (session : Session) (now : Int) : Session × Option EngErr :=
  ({ session with status := .abandoned, updatedAt := now }, none)

/-- `Engine.StartPendingTimers`: every pending timer becomes running;
returns the count started (the session is only re-saved when it is
positive, which changes nothing observable here). -/
def startPendingTimers (session : Session) (now : Int) : Session × Nat :=
  let started := (session.timerStates.filter (fun kv => kv.2.status = .pending)).length
  let states := amap
    (fun ts => if ts.status = .pending then { ts with status := .running } else ts)
    session.timerStates
  if started > 0 then ({ session with timerStates := states, updatedAt := now }, started)
  else (session, 0)

/-- `Engine.DismissTimer`: fails when the timer is absent or neither
running nor fired; otherwise marks it dismissed (its `remaining` field is
not touched). -/
def dismissTimer (session : Session) (timerID : String) (now : Int) :
    Session × Option EngErr :=
  match alookup session.timerStates timerID with
  | none => (session, some .timerNotFound)
  | some ts =>
    if ts.status ≠ .running ∧ ts.status ≠ .fired then
      (session, some .timerNotDismissable)
    else
      ({ session with
          timerStates := ainsert session.timerStates timerID { ts with status := .dismissed }
          updatedAt := now }, none)

end Engine

/-! ### Timer supervisor, `internal/timer/supervisor.go`

The supervisor's tick loop wakes every `tickInterval` and runs
`processSession` on every active session with `now = time.Now()`.  The
embedding models one session; a run of `n` ticks starting at time `tm`
evaluates `processSession` at times `tm + tickInterval`, `tm + 2·tickInterval`, …
Durations are in seconds (`1 * time.Second = 1`). -/

namespace Timer

/-- A message handed to the notifier; `urgent` distinguishes `NotifyUrgent`
from `Notify`. -/
structure Notification where
  urgent : Bool
  message : String
  deriving DecidableEq, Repr

/-- The supervisor's configuration fields with their defaults from
`timer.New`. -/
structure SupervisorConfig where
  tickInterval : Int := 1
  notifyCooldown : Int := 15
  maxEscalation : Int := 3
  reminderInterval : Int := 120
  almostDoneThreshold : Int := 30
  deriving DecidableEq, Repr

/-- The default configuration built by `timer.New` with no options. -/
def defaultConfig : SupervisorConfig := {}

/-- `Supervisor.escalationMessage`: the reminder text for a timer at its
current escalation level. -/
def escalationMessage (ts : TimerState) : String :=
  if ts.escalationLevel = 0 then "[Timer] " ++ ts.label ++ " is up."
  else if ts.escalationLevel = 1 then "[Timer] " ++ ts.label ++ " -- check it now."
  else if ts.escalationLevel = 2 then "[Timer] " ++ ts.label ++ ". Now."
  else "[Timer] " ++ ts.label ++ "."

/-- `formatRemaining`: human-friendly duration.  With whole-second values
`d.Round(time.Second)` is the identity and `int(d.Seconds())` is exact.
All divisions here are on non-negative operands, where Go's truncated
division agrees with `Int.div`. -/
def formatRemaining (d : Int) : String :=
  let totalSec := d
  if totalSec < 60 then
    if totalSec = 1 then "1 second" else toString totalSec ++ " seconds"
  else
    let m := (totalSec + 30) / 60
    let m := if m ≤ 0 then 1 else m
    if m = 1 then "1 minute" else toString m ++ " minutes"

/-- The body of `processSession`'s first loop for one timer: decrement a
running timer, fire it when `remaining ≤ 0`, otherwise maybe emit the
"almost done" warning or a periodic reminder. -/
def tickOne (cfg : SupervisorConfig) (now : Int) (ts : TimerState) :
    TimerState × List Notification :=
  if ts.status ≠ .running then (ts, [])
  else
    let ts := { ts with remaining := ts.remaining - cfg.tickInterval }
    if ts.remaining ≤ 0 then
      let ts := { ts with remaining := 0, status := .fired }
      let msg := escalationMessage ts
      ({ ts with lastNotified := now, escalationLevel := 1 },
       [{ urgent := true, message := msg }])
    else if ¬ts.warnedAlmost ∧ ts.remaining ≤ cfg.almostDoneThreshold ∧
            ts.duration > cfg.almostDoneThreshold * 2 then
      ({ ts with warnedAlmost := true, lastRemindedAt := now },
       [{ urgent := false,
          message := "[Timer] " ++ ts.label ++ " — almost done, " ++
            formatRemaining ts.remaining ++ " left." }])
    else if cfg.reminderInterval > 0 ∧ ts.duration > cfg.reminderInterval then
      if ts.lastRemindedAt = 0 then
        let elapsed := ts.duration - ts.remaining
        if elapsed ≥ cfg.reminderInterval then
          ({ ts with lastRemindedAt := now },
           [{ urgent := false,
              message := "[Timer] " ++ ts.label ++ " — " ++
                formatRemaining ts.remaining ++ " remaining." }])
        else (ts, [])
      else if now - ts.lastRemindedAt ≥ cfg.reminderInterval then
        ({ ts with lastRemindedAt := now },
         [{ urgent := false,
            message := "[Timer] " ++ ts.label ++ " — " ++
              formatRemaining ts.remaining ++ " remaining." }])
      else (ts, [])
    else (ts, [])

/-- The body of `processSession`'s second loop for one timer: follow-up
escalation for fired timers, gated by the cooldown and the escalation cap. -/
def escOne (cfg : SupervisorConfig) (now : Int) (ts : TimerState) :
    TimerState × List Notification :=
  if ts.status ≠ .fired then (ts, [])
  else if ts.escalationLevel > cfg.maxEscalation then (ts, [])
  else if ts.lastNotified ≠ 0 ∧ now - ts.lastNotified < cfg.notifyCooldown then (ts, [])
  else
    ({ ts with lastNotified := now, escalationLevel := ts.escalationLevel + 1 },
     [{ urgent := false, message := escalationMessage ts }])

/-- Run a per-timer body over every entry of the timer map, collecting the
notifications in map order. -/
def mapCollect (f : TimerState → TimerState × List Notification) :
    List (String × TimerState) → List (String × TimerState) × List Notification
  | [] => ([], [])
  | (k, ts) :: rest =>
    let (ts₂, ns) := f ts
    let (rest₂, ns₂) := mapCollect f rest
    ((k, ts₂) :: rest₂, ns ++ ns₂)

/-- `Supervisor.processSession`: skip sessions that are not active; first
loop over all timers (decrement/fire/remind), then second loop
(escalations); persist the session. -/
def processSession (cfg : SupervisorConfig) (now : Int) (session : Session) :
    Session × List Notification :=
  if session.status ≠ .active then (session, [])
  else
    let (l₁, ns₁) := mapCollect (tickOne cfg now) session.timerStates
    let (l₂, ns₂) := mapCollect (escOne cfg now) l₁
    ({ session with timerStates := l₂ }, ns₁ ++ ns₂)

/-- The effect of one full supervisor tick on a single timer: the first
loop's body followed by the second loop's body, with the notifications of
both. -/
def timerTick (cfg : SupervisorConfig) (now : Int) (ts : TimerState) :
    TimerState × List Notification :=
  let (ts₁, ns₁) := tickOne cfg now ts
  let (ts₂, ns₂) := escOne cfg now ts₁
  (ts₂, ns₁ ++ ns₂)

/-- The state of a single timer after `n` supervisor ticks, the first tick
occurring at time `tm + tickInterval`. -/
def timerRun (cfg : SupervisorConfig) : Nat → Int → TimerState → TimerState
  | 0, _, ts => ts
  | n + 1, tm, ts =>
    timerRun cfg n (tm + cfg.tickInterval)
      (timerTick cfg (tm + cfg.tickInterval) ts).1

/-- `n` supervisor ticks on a session, the first at time `tm + tickInterval`;
returns the final session and every notification stamped with the time of
the tick that emitted it. -/
def runTicks (cfg : SupervisorConfig) : Nat → Int → Session →
    Session × List (Int × Notification)
  | 0, _, s => (s, [])
  | n + 1, tm, s =>
    let now := tm + cfg.tickInterval
    let (s₁, ns) := processSession cfg now s
    let (s₂, rest) := runTicks cfg n now s₁
    (s₂, ns.map (fun nf => (now, nf)) ++ rest)

end Timer

/-! ### Mouth priority queue, `internal/speech/mouth.go` / `speech.go`

`Priority` is a Go `int` with constants Low=0, Normal=1, High=2, Critical=3.
The worker's `dequeue` scans the queue for the first index holding the
maximum priority (`if item.Priority > m.queue[bestIdx].Priority` keeps the
earlier index on ties) and removes it, preserving the order of the rest. -/

namespace Speech

/-- `speech.Priority` (int). -/
abbrev Priority := Int

def priorityLow : Priority := 0
def priorityNormal : Priority := 1
def priorityHigh : Priority := 2
def priorityCritical : Priority := 3

/-- `speech.SpeechRequest`. -/
structure SpeechRequest where
  text : String
  priority : Priority
  queuedAt : Int
  deriving DecidableEq, Repr

/-- The scan of `Mouth.dequeue` split as (items before the chosen index,
chosen item, items after): the chosen item is the one at the first index of
maximum priority, exactly what the Go loop's `bestIdx` selects.  Every item
before the chosen one has strictly smaller priority, every item after has
smaller-or-equal priority. -/
def scanMax : List SpeechRequest → Option (List SpeechRequest × SpeechRequest × List SpeechRequest)
  | [] => none
  | r :: rest =>
    match scanMax rest with
    | none => some ([], r, [])
    | some (pre, c, post) =>
      if c.priority > r.priority then some (r :: pre, c, post)
      else some ([], r, rest)

/-- `Mouth.dequeue`: remove and return the first highest-priority item;
the remainder keeps the original order (`append(queue[:bestIdx],
queue[bestIdx+1:]...)`). -/
def dequeue (queue : List SpeechRequest) : Option (SpeechRequest × List SpeechRequest) :=
  match scanMax queue with
  | none => none
  | some (pre, c, post) => some (c, pre ++ post)

/-- The worker's drain loop as a function of a fixed queue: repeatedly
`dequeue` until empty, yielding the processing order.  The recursion is
bounded by the queue length (each `dequeue` removes one item). -/
def drainAllFuel : Nat → List SpeechRequest → List SpeechRequest
  | 0, _ => []
  | fuel + 1, queue =>
    match dequeue queue with
    | none => []
    | some (c, rest) => c :: drainAllFuel fuel rest

def drainAll (queue : List SpeechRequest) : List SpeechRequest :=
  drainAllFuel queue.length queue

end Speech

/-! ### Recipe-mutation applier, `internal/gpt/apply.go`

Only the step actions are embedded (`addStep`, `removeStep`, `updateStep`);
`Action` carries their fields (`step_index`, 1-based, and `instruction`). -/

namespace Gpt

/-- The fields of `gpt.Action` used by the step actions. -/
structure Action where
  stepIndex : Int
  instruction : String
  deriving DecidableEq, Repr

/-- The renumbering loop `for i := range r.Steps { r.Steps[i].Order = i + 1 }`. -/
def renumber (steps : List Step) : List Step :=
  steps.enum.map (fun p => { p.2 with order := (p.1 : Int) + 1 })

/-- `gpt.updateStep`: set the instruction when non-empty; out-of-range
fails. -/
def updateStep (r : Recipe) (act : Action) : Except String Recipe :=
  let idx : Int := act.stepIndex - 1
  if idx < 0 ∨ idx ≥ (r.steps.length : Int) then
    .error ("step " ++ toString act.stepIndex ++ " out of range (1-" ++
      toString r.steps.length ++ ")")
  else if act.instruction ≠ "" then
    match r.steps.get? idx.toNat with
    | none => .ok r
    | some st =>
      .ok { r with
        steps := r.steps.set idx.toNat ({ st with instruction := act.instruction }) }
  else .ok r

/-- `gpt.removeStep`: remove the step and renumber; out-of-range fails. -/
def removeStep (r : Recipe) (act : Action) : Except String Recipe :=
  let idx : Int := act.stepIndex - 1
  if idx < 0 ∨ idx ≥ (r.steps.length : Int) then
    .error ("step " ++ toString act.stepIndex ++ " out of range (1-" ++
      toString r.steps.length ++ ")")
  else .ok { r with steps := renumber (r.steps.eraseIdx idx.toNat) }

/-- `gpt.addStep`: clamp a negative or past-end insertion index to the end
(append), insert, renumber.  Never fails. -/
def addStep (r : Recipe) (act : Action) : Except String Recipe :=
  let idx : Int := act.stepIndex - 1
  let idx : Nat := if idx < 0 ∨ idx > (r.steps.length : Int) then r.steps.length else idx.toNat
  let newStep : Step :=
    { id := "step-" ++ toString (r.steps.length + 1)
      order := (idx : Int) + 1
      instruction := act.instruction
      duration := 0
      conditions := []
      parallelHints := []
      timerConfig := none }
  let steps := r.steps.take idx ++ [newStep] ++ r.steps.drop idx
  .ok { r with steps := renumber steps }

end Gpt

/-! ### Reachable session states

The session states produced by the engine's public mutating operations and
the supervisor's tick, starting from `StartSession`, for a fixed recipe.
Each operation's result state is whatever ends up in the session store. -/

/-- Reachability of a session state through the engine and supervisor
operations, for sessions of recipe `r`. -/
inductive Reachable (r : Recipe) : Session → Prop where
  | start (dflt servings now : Int) (id : String) (s : Session) :
      Engine.startSession r dflt id servings now = some s → Reachable r s
  | advance (s s₂ : Session) (e : Option EngErr) (now : Int) :
      Reachable r s → Engine.advance r s now = some (s₂, e) → Reachable r s₂
  | skipStep (s s₂ : Session) (e : Option EngErr) (now : Int) :
      Reachable r s → Engine.skip r s now = some (s₂, e) → Reachable r s₂
  | pause (s : Session) (now : Int) :
      Reachable r s → Reachable r (Engine.pause s now).1
  | resume (s : Session) (now : Int) :
      Reachable r s → Reachable r (Engine.resume s now).1
  | abandon (s : Session) (now : Int) :
      Reachable r s → Reachable r (Engine.abandon s now).1
  | startPendingTimers (s : Session) (now : Int) :
      Reachable r s → Reachable r (Engine.startPendingTimers s now).1
  | dismissTimer (s : Session) (timerID : String) (now : Int) :
      Reachable r s → Reachable r (Engine.dismissTimer s timerID now).1
  | supervise (s : Session) (cfg : Timer.SupervisorConfig) (now : Int) :
      Reachable r s → Reachable r (Timer.processSession cfg now s).1

/-- Every timer config of the recipe has a positive duration (true of the
seeded recipes; `updateTimer` also enforces positivity). -/
def PosTimerDurations (r : Recipe) : Prop :=
  ∀ step ∈ r.steps, ∀ tc, step.timerConfig = some tc → 0 < tc.duration

/-- The per-timer invariant the code actually maintains: a fired timer has
`remaining = 0`, and a pending/running/paused timer has `remaining > 0`
(nothing is guaranteed for dismissed timers: dismissal keeps `remaining`). -/
def TimerOk (ts : TimerState) : Prop :=
  (ts.status = .fired → ts.remaining = 0) ∧
  ((ts.status = .pending ∨ ts.status = .running ∨ ts.status = .paused) →
    0 < ts.remaining)

/-! ### Concrete sample data used by witnesses and counterexamples -/

/-- A two-step recipe; the first step carries an 8-minute timer config
(the chicken-alfredo "Water boiling" timer of the seed data). -/
def sampleRecipe : Recipe :=
  { id := "r1", name := "Pasta", description := "", servings := 2,
    ingredients := [],
    steps := [{ id := "s1", order := 1, instruction := "Boil water.",
                duration := 0, conditions := [], parallelHints := [],
                timerConfig := some { duration := 480, label := "Water boiling" } },
              { id := "s2", order := 2, instruction := "Serve.",
                duration := 0, conditions := [], parallelHints := [],
                timerConfig := none }],
    tags := [], version := 1 }

/-- The session `startSession sampleRecipe 2 "sess1" 2 100` produces. -/
def sampleSession0 : Session :=
  { id := "sess1", recipeId := "r1", recipeName := "Pasta", servings := 2,
    currentStepIndex := 0,
    stepStates := [(0, { status := .active, startedAt := 100, completedAt := 0 }),
                   (1, { status := .pending, startedAt := 0, completedAt := 0 })],
    timerStates := [("timer-s1",
      { id := "timer-s1", stepId := "s1", label := "Water boiling",
        duration := 480, remaining := 480, status := .pending,
        lastNotified := 0, lastRemindedAt := 0, warnedAlmost := false,
        escalationLevel := 0 })],
    status := .active, startedAt := 100, updatedAt := 100 }

/-- The running timer produced for step `s1` by `startPendingTimers`. -/
def sampleTimer1 : TimerState :=
  { id := "timer-s1", stepId := "s1", label := "Water boiling",
    duration := 480, remaining := 480, status := .running,
    lastNotified := 0, lastRemindedAt := 0, warnedAlmost := false,
    escalationLevel := 0 }

/-- `sampleSession0` after `startPendingTimers` at time 110: the timer is
running. -/
def sampleSession1 : Session :=
  { sampleSession0 with
    timerStates := [("timer-s1", sampleTimer1)]
    updatedAt := 110 }

/-- `sampleSession1` after `dismissTimer "timer-s1"` at time 120: the timer
is dismissed while its `remaining` is still 480. -/
def sampleSession2 : Session :=
  { sampleSession0 with
    timerStates := [("timer-s1",
      { id := "timer-s1", stepId := "s1", label := "Water boiling",
        duration := 480, remaining := 480, status := .dismissed,
        lastNotified := 0, lastRemindedAt := 0, warnedAlmost := false,
        escalationLevel := 0 })]
    updatedAt := 120 }

/-- A single running timer one second from firing (escalation level 0). -/
def sampleTimerShort : TimerState :=
  { id := "timer-s1", stepId := "s1", label := "Water boiling", duration := 480,
    remaining := 1, status := .running, lastNotified := 0, lastRemindedAt := 0,
    warnedAlmost := false, escalationLevel := 0 }

/-- An active single-timer session whose timer is about to fire. -/
def sampleSessionShort : Session :=
  { sampleSession0 with
    timerStates := [("timer-s1", sampleTimerShort)]
    updatedAt := 110 }

/-- A concrete speech queue: a low item, then two high items, then a
normal item, queued in increasing `queuedAt` order. -/
def sampleQueue : List Speech.SpeechRequest :=
  [{ text := "low early", priority := Speech.priorityLow, queuedAt := 1 },
   { text := "high first", priority := Speech.priorityHigh, queuedAt := 2 },
   { text := "normal", priority := Speech.priorityNormal, queuedAt := 3 },
   { text := "high second", priority := Speech.priorityHigh, queuedAt := 4 }]

/-! ## Verification

Lemmas about the embedded operations, followed by the claim theorems. -/

theorem alookup_ainsert_self {α β : Type} [DecidableEq α]
    (l : List (α × β)) (k : α) (v : β) : alookup (ainsert l k v) k = some v := by
  induction l with
  | nil => simp [ainsert, alookup]
  | cons kv rest ih =>
    by_cases h : kv.1 = k
    · simp [ainsert, h, alookup]
    · simp [ainsert, h, alookup, ih]

theorem alookup_ainsert_ne {α β : Type} [DecidableEq α]
    (l : List (α × β)) (k k' : α) (v : β) (h : k ≠ k') :
    alookup (ainsert l k v) k' = alookup l k' := by
  induction l with
  | nil => simp [ainsert, alookup, h]
  | cons kv rest ih =>
    by_cases hk : kv.1 = k
    · simp [ainsert, hk, alookup, h]
    · simp [ainsert, hk, alookup, ih]

theorem alookup_amap {α β : Type} [DecidableEq α]
    (f : β → β) (l : List (α × β)) (k : α) :
    alookup (amap f l) k = (alookup l k).map f := by
  induction l with
  | nil => simp [amap, alookup]
  | cons kv rest ih =>
    by_cases h : kv.1 = k
    · simp [amap, alookup, h]
    · simpa [amap, alookup, h] using ih

theorem mem_ainsert {α β : Type} [DecidableEq α]
    (l : List (α × β)) (k : α) (v : β) (kv : α × β)
    (h : kv ∈ ainsert l k v) : kv = (k, v) ∨ kv ∈ l := by
  induction l with
  | nil => simpa [ainsert] using h
  | cons hd rest ih =>
    by_cases hk : hd.1 = k
    · simp only [ainsert, hk, if_pos rfl] at h
      rcases List.mem_cons.mp h with h | h
      · exact Or.inl h
      · exact Or.inr (List.mem_cons_of_mem _ h)
    · simp only [ainsert, if_neg hk] at h
      rcases List.mem_cons.mp h with h | h
      · exact Or.inr (by simp [h])
      · rcases ih h with h | h
        · exact Or.inl h
        · exact Or.inr (List.mem_cons_of_mem _ h)

theorem mem_amap {α β : Type} (f : β → β) (l : List (α × β)) (kv : α × β)
    (h : kv ∈ amap f l) : ∃ w, (kv.1, w) ∈ l ∧ kv.2 = f w := by
  induction l with
  | nil => simp [amap] at h
  | cons hd rest ih =>
    rcases List.mem_cons.mp h with h | h
    · refine ⟨hd.2, ?_, ?_⟩
      · rw [h]; exact List.mem_cons_self _ _
      · rw [h]
    · rcases ih h with ⟨w, hw, hkv⟩
      exact ⟨w, List.mem_cons_of_mem _ hw, hkv⟩

namespace Speech

theorem scanMax_nil_iff (queue : List SpeechRequest) :
    scanMax queue = none ↔ queue = [] := by
  cases queue with
  | nil => simp [scanMax]
  | cons r rest =>
    simp only [scanMax]
    cases scanMax rest with
    | none => simp
    | some val =>
      obtain ⟨pre, c, post⟩ := val
      by_cases hc : c.priority > r.priority <;> simp [hc]

/-- `scanMax` splits the queue around the chosen item, preserving order. -/
theorem scanMax_split (queue : List SpeechRequest) (pre : List SpeechRequest)
    (c : SpeechRequest) (post : List SpeechRequest)
    (h : scanMax queue = some (pre, c, post)) : queue = pre ++ c :: post := by
  induction queue generalizing pre c post with
  | nil => simp [scanMax] at h
  | cons r rest ih =>
    simp only [scanMax] at h
    cases hrest : scanMax rest with
    | none =>
      rw [hrest] at h
      have hr : rest = [] := (scanMax_nil_iff rest).mp hrest
      simp only [Option.some.injEq, Prod.mk.injEq] at h
      obtain ⟨h1, h2, h3⟩ := h
      subst hr
      simp [← h1, ← h2, ← h3]
    | some val =>
      obtain ⟨pre₀, c₀, post₀⟩ := val
      rw [hrest] at h
      dsimp only at h
      by_cases hc : c₀.priority > r.priority
      · rw [if_pos hc] at h
        simp only [Option.some.injEq, Prod.mk.injEq] at h
        obtain ⟨h1, h2, h3⟩ := h
        subst h1 h2 h3
        simpa using ih pre₀ c₀ post₀ hrest
      · rw [if_neg hc] at h
        simp only [Option.some.injEq, Prod.mk.injEq] at h
        obtain ⟨h1, h2, h3⟩ := h
        subst h1 h2 h3
        simp

theorem scanMax_length (queue : List SpeechRequest) (pre : List SpeechRequest)
    (c : SpeechRequest) (post : List SpeechRequest)
    (h : scanMax queue = some (pre, c, post)) :
    pre.length + post.length + 1 = queue.length := by
  have := scanMax_split queue pre c post h
  subst this
  simp
  omega

/-- The chosen item's priority bounds: strictly above everything before it
(ties keep the earlier index, so nothing before it reaches its priority)
and at least everything after it. -/
theorem scanMax_bounds (queue : List SpeechRequest) (pre : List SpeechRequest)
    (c : SpeechRequest) (post : List SpeechRequest)
    (h : scanMax queue = some (pre, c, post)) :
    (∀ x ∈ pre, x.priority < c.priority) ∧ (∀ x ∈ post, x.priority ≤ c.priority) := by
  induction queue generalizing pre c post with
  | nil => simp [scanMax] at h
  | cons r rest ih =>
    simp only [scanMax] at h
    cases hrest : scanMax rest with
    | none =>
      rw [hrest] at h
      simp only [Option.some.injEq, Prod.mk.injEq] at h
      obtain ⟨h1, h2, h3⟩ := h
      subst h1 h2 h3
      exact ⟨by simp, by simp⟩
    | some val =>
      obtain ⟨pre₀, c₀, post₀⟩ := val
      rw [hrest] at h
      dsimp only at h
      obtain ⟨ihpre, ihpost⟩ := ih pre₀ c₀ post₀ hrest
      by_cases hc : c₀.priority > r.priority
      · rw [if_pos hc] at h
        simp only [Option.some.injEq, Prod.mk.injEq] at h
        obtain ⟨h1, h2, h3⟩ := h
        subst h1 h2 h3
        refine ⟨?_, ihpost⟩
        intro x hx
        rcases List.mem_cons.mp hx with hx | hx
        · subst hx; exact hc
        · exact ihpre x hx
      · rw [if_neg hc] at h
        simp only [Option.some.injEq, Prod.mk.injEq] at h
        obtain ⟨h1, h2, h3⟩ := h
        subst h1 h2 h3
        refine ⟨by simp, ?_⟩
        have hsplit := scanMax_split rest pre₀ c₀ post₀ hrest
        intro x hx
        rw [hsplit] at hx
        have hcr : c₀.priority ≤ r.priority := le_of_not_lt hc
        rcases List.mem_append.mp hx with hx | hx
        · exact le_of_lt (lt_of_lt_of_le (ihpre x hx) hcr)
        · rcases List.mem_cons.mp hx with hx | hx
          · subst hx; exact hcr
          · exact le_trans (ihpost x hx) hcr

theorem dequeue_split (queue : List SpeechRequest) (c : SpeechRequest)
    (rest : List SpeechRequest) (h : dequeue queue = some (c, rest)) :
    ∃ pre post, queue = pre ++ c :: post ∧ rest = pre ++ post ∧
      (∀ x ∈ pre, x.priority < c.priority) ∧ (∀ x ∈ post, x.priority ≤ c.priority) := by
  unfold dequeue at h
  cases hscan : scanMax queue with
  | none => rw [hscan] at h; simp at h
  | some val =>
    obtain ⟨pre, c₀, post⟩ := val
    rw [hscan] at h
    simp only [Option.some.injEq, Prod.mk.injEq] at h
    obtain ⟨h1, h2⟩ := h
    refine ⟨pre, post, ?_, h2.symm, ?_, ?_⟩
    · rw [← h1]; exact scanMax_split queue pre c₀ post hscan
    · rw [← h1]; exact (scanMax_bounds queue pre c₀ post hscan).1
    · rw [← h1]; exact (scanMax_bounds queue pre c₀ post hscan).2

theorem dequeue_none_iff (queue : List SpeechRequest) :
    dequeue queue = none ↔ queue = [] := by
  unfold dequeue
  cases hscan : scanMax queue with
  | none => simpa using (scanMax_nil_iff queue).mp hscan
  | some val =>
    obtain ⟨pre, c, post⟩ := val
    constructor
    · intro h; simp at h
    · intro h; subst h; simp [scanMax] at hscan

/-- Extra fuel beyond the queue length does not change the drain. -/
theorem drainAllFuel_stable (fuel : Nat) :
    ∀ queue : List SpeechRequest, queue.length ≤ fuel →
      drainAllFuel fuel queue = drainAllFuel queue.length queue := by
  induction fuel with
  | zero =>
    intro queue h
    have : queue = [] := List.length_eq_zero.mp (Nat.le_zero.mp h)
    subst this
    rfl
  | succ fuel ih =>
    intro queue h
    cases hdq : dequeue queue with
    | none =>
      have : queue = [] := (dequeue_none_iff queue).mp hdq
      subst this
      rfl
    | some val =>
      obtain ⟨c, rest⟩ := val
      obtain ⟨pre, post, hq, hrest, -, -⟩ := dequeue_split queue c rest hdq
      have hlen : queue.length = rest.length + 1 := by
        subst hq hrest
        simp
        omega
      rw [hlen]
      simp only [drainAllFuel, hdq]
      have h₁ : rest.length ≤ fuel := by omega
      rw [ih rest h₁]

theorem drainAll_cons (queue : List SpeechRequest) (c : SpeechRequest)
    (rest : List SpeechRequest) (h : dequeue queue = some (c, rest)) :
    drainAll queue = c :: drainAll rest := by
  obtain ⟨pre, post, hq, hrest, -, -⟩ := dequeue_split queue c rest h
  have hlen : queue.length = rest.length + 1 := by
    subst hq hrest
    simp
    omega
  unfold drainAll
  rw [hlen]
  simp only [drainAllFuel, h]

/-- Removing the first maximum commutes with per-priority filtering: the
chosen item is the head of its priority class, and every other class is
untouched. -/
theorem dequeue_filter (queue : List SpeechRequest) (c : SpeechRequest)
    (rest : List SpeechRequest) (h : dequeue queue = some (c, rest)) (p : Int) :
    queue.filter (fun x => x.priority == p) =
      (if c.priority = p then [c] else []) ++
        rest.filter (fun x => x.priority == p) := by
  obtain ⟨pre, post, hq, hrest, hpre, -⟩ := dequeue_split queue c rest h
  subst hq hrest
  have hpre₀ : ∀ x ∈ pre, x.priority ≠ c.priority := fun x hx => ne_of_lt (hpre x hx)
  by_cases hcp : c.priority = p
  · have : pre.filter (fun x => x.priority == p) = [] := by
      rw [List.filter_eq_nil]
      intro x hx
      simp only [beq_iff_eq]
      rw [← hcp]
      exact hpre₀ x hx
    simp [List.filter_append, this, List.filter_cons, hcp]
  · have hc : (c.priority == p) = false := by simp [hcp]
    simp [List.filter_append, List.filter_cons, hc, hcp]

/-- The drain sequence is a rearrangement of the queue: membership is
preserved. -/
theorem drainAll_mem (queue : List SpeechRequest) (x : SpeechRequest) :
    x ∈ drainAll queue ↔ x ∈ queue := by
  generalize hn : queue.length = n
  induction n generalizing queue with
  | zero =>
    have : queue = [] := List.length_eq_zero.mp hn
    subst this
    simp [drainAll, drainAllFuel]
  | succ n ih =>
    cases hdq : dequeue queue with
    | none =>
      have : queue = [] := (dequeue_none_iff queue).mp hdq
      subst this
      simp at hn
    | some val =>
      obtain ⟨c, rest⟩ := val
      obtain ⟨pre, post, hq, hrest, -, -⟩ := dequeue_split queue c rest hdq
      have hlen : rest.length = n := by
        subst hq hrest
        simp at hn ⊢
        omega
      rw [drainAll_cons queue c rest hdq]
      subst hq hrest
      simp only [List.mem_cons, ih _ hlen, List.mem_append, List.mem_cons]
      tauto

/-- The drain processes one priority class exactly in queue order. -/
theorem drainAll_filter (queue : List SpeechRequest) (p : Int) :
    (drainAll queue).filter (fun x => x.priority == p) =
      queue.filter (fun x => x.priority == p) := by
  generalize hn : queue.length = n
  induction n generalizing queue with
  | zero =>
    have : queue = [] := List.length_eq_zero.mp hn
    subst this
    simp [drainAll, drainAllFuel]
  | succ n ih =>
    cases hdq : dequeue queue with
    | none =>
      have : queue = [] := (dequeue_none_iff queue).mp hdq
      subst this
      simp at hn
    | some val =>
      obtain ⟨c, rest⟩ := val
      obtain ⟨pre, post, hq, hrest, -, -⟩ := dequeue_split queue c rest hdq
      have hlen : rest.length = n := by
        rw [hq] at hn
        rw [hrest]
        simp at hn ⊢
        omega
      rw [drainAll_cons queue c rest hdq, dequeue_filter queue c rest hdq p]
      by_cases hcp : c.priority = p
      · simp [List.filter_cons, hcp, ih rest hlen]
      · have hc : (c.priority == p) = false := by simp [hcp]
        simp [List.filter_cons, hc, hcp, ih rest hlen]

/-- The drain runs in never-increasing priority order. -/
theorem drainAll_sorted (queue : List SpeechRequest) :
    (drainAll queue).Pairwise (fun a b => b.priority ≤ a.priority) := by
  generalize hn : queue.length = n
  induction n generalizing queue with
  | zero =>
    have : queue = [] := List.length_eq_zero.mp hn
    subst this
    simp [drainAll, drainAllFuel]
  | succ n ih =>
    cases hdq : dequeue queue with
    | none =>
      have : queue = [] := (dequeue_none_iff queue).mp hdq
      subst this
      simp at hn
    | some val =>
      obtain ⟨c, rest⟩ := val
      obtain ⟨pre, post, hq, hrest, hpre, hpost⟩ := dequeue_split queue c rest hdq
      have hlen : rest.length = n := by
        rw [hq] at hn
        rw [hrest]
        simp at hn ⊢
        omega
      rw [drainAll_cons queue c rest hdq]
      refine List.pairwise_cons.mpr ⟨?_, ih rest hlen⟩
      intro x hx
      have hxrest : x ∈ rest := (drainAll_mem rest x).mp hx
      rw [hrest] at hxrest
      rcases List.mem_append.mp hxrest with hx₁ | hx₁
      · exact le_of_lt (hpre x hx₁)
      · exact hpost x hx₁

end Speech

/-! ### Claim C7: Mouth dequeues by priority, FIFO within a level -/

/-- Claim C7: whenever the Mouth's worker dequeues a speech request it picks
a queued request of maximal priority, and among requests of equal priority
the one with the earliest queuedAt (queues grow in queuedAt order, hence
the Pairwise hypothesis); consequently a drain of the queue processes
requests in descending priority order and FIFO within each priority level
(each priority class comes out exactly in queue order). -/
theorem c7_mouth_priority_fifo (queue : List Speech.SpeechRequest)
    (hq : queue.Pairwise (fun a b => a.queuedAt ≤ b.queuedAt)) :
    (∀ c rest, Speech.dequeue queue = some (c, rest) →
      c ∈ queue ∧ (∀ x ∈ queue, x.priority ≤ c.priority) ∧
      (∀ x ∈ queue, x.priority = c.priority → c.queuedAt ≤ x.queuedAt)) ∧
    (Speech.drainAll queue).Pairwise (fun a b => b.priority ≤ a.priority) ∧
    (∀ p : Int, (Speech.drainAll queue).filter (fun x => x.priority == p) =
      queue.filter (fun x => x.priority == p)) ∧
    (∀ p : Int,
      ((Speech.drainAll queue).filter (fun x => x.priority == p)).Pairwise
        (fun a b => a.queuedAt ≤ b.queuedAt)) := by
  refine ⟨?_, Speech.drainAll_sorted queue,
    fun p => Speech.drainAll_filter queue p, ?_⟩
  · intro c rest h
    obtain ⟨pre, post, hsplit, hrest, hpre, hpost⟩ :=
      Speech.dequeue_split queue c rest h
    subst hsplit
    obtain ⟨-, hcpost, -⟩ := List.pairwise_append.mp hq
    have hcx : ∀ x ∈ post, c.queuedAt ≤ x.queuedAt :=
      (List.pairwise_cons.mp hcpost).1
    refine ⟨by simp, ?_, ?_⟩
    · intro x hx
      rcases List.mem_append.mp hx with hx | hx
      · exact le_of_lt (hpre x hx)
      · rcases List.mem_cons.mp hx with hx | hx
        · subst hx; exact le_refl _
        · exact hpost x hx
    · intro x hx hxp
      rcases List.mem_append.mp hx with hx | hx
      · exact absurd hxp (ne_of_lt (hpre x hx))
      · rcases List.mem_cons.mp hx with hx | hx
        · subst hx; exact le_refl _
        · exact hcx x hx
  · intro p
    rw [Speech.drainAll_filter]
    exact List.Pairwise.sublist (List.filter_sublist _) hq

/-- Claim C7 witness: the concrete four-element queue. -/
theorem c7_mouth_priority_fifo_witness :
    (∀ c rest, Speech.dequeue sampleQueue = some (c, rest) →
      c ∈ sampleQueue ∧ (∀ x ∈ sampleQueue, x.priority ≤ c.priority) ∧
      (∀ x ∈ sampleQueue, x.priority = c.priority → c.queuedAt ≤ x.queuedAt)) ∧
    (Speech.drainAll sampleQueue).Pairwise (fun a b => b.priority ≤ a.priority) ∧
    (∀ p : Int, (Speech.drainAll sampleQueue).filter (fun x => x.priority == p) =
      sampleQueue.filter (fun x => x.priority == p)) ∧
    (∀ p : Int,
      ((Speech.drainAll sampleQueue).filter (fun x => x.priority == p)).Pairwise
        (fun a b => a.queuedAt ≤ b.queuedAt)) :=
  c7_mouth_priority_fifo sampleQueue (by decide)

/-! ### Small facts about the engine's helpers -/

theorem maybeStartTimer_stepStates (s : Session) (step : Step) :
    (Engine.maybeStartTimer s step).stepStates = s.stepStates := by
  unfold Engine.maybeStartTimer
  cases step.timerConfig <;> rfl

theorem maybeStartTimer_status (s : Session) (step : Step) :
    (Engine.maybeStartTimer s step).status = s.status := by
  unfold Engine.maybeStartTimer
  cases step.timerConfig <;> rfl

theorem maybeStartTimer_currentStepIndex (s : Session) (step : Step) :
    (Engine.maybeStartTimer s step).currentStepIndex = s.currentStepIndex := by
  unfold Engine.maybeStartTimer
  cases step.timerConfig <;> rfl

theorem maybeStartTimer_timerStates_none (s : Session) (step : Step)
    (h : step.timerConfig = none) :
    (Engine.maybeStartTimer s step).timerStates = s.timerStates := by
  unfold Engine.maybeStartTimer
  rw [h]

theorem maybeStartTimer_timerStates_some (s : Session) (step : Step)
    (tc : TimerConfig) (h : step.timerConfig = some tc) :
    (Engine.maybeStartTimer s step).timerStates =
      ainsert s.timerStates ("timer-" ++ step.id) (Engine.pendingTimer step tc) := by
  unfold Engine.maybeStartTimer
  rw [h]

theorem renumber_length (l : List Step) : (Gpt.renumber l).length = l.length := by
  simp [Gpt.renumber]

theorem renumber_get? (l : List Step) (i : Nat) (st : Step)
    (h : (Gpt.renumber l).get? i = some st) : st.order = (i : Int) + 1 := by
  simp only [Gpt.renumber, List.get?_map, List.get?_enum] at h
  cases hl : l.get? i with
  | none => rw [hl] at h; simp at h
  | some v =>
    rw [hl] at h
    simp only [Option.map_some', Option.some.injEq] at h
    rw [← h]

/-! ### Case analyses of the engine operations (for the reachability
invariants) -/

theorem startSession_cases (r : Recipe) (dflt : Int) (id : String)
    (servings now : Int) (s : Session)
    (h : Engine.startSession r dflt id servings now = some s) :
    s.status = .active ∧
    (s.timerStates = [] ∨ ∃ step tc, step ∈ r.steps ∧ step.timerConfig = some tc ∧
      s.timerStates = [("timer-" ++ step.id, Engine.pendingTimer step tc)]) := by
  cases hsteps : r.steps with
  | nil =>
    rw [Engine.startSession, hsteps] at h
    simp [alookup] at h
  | cons st0 rest =>
    rw [Engine.startSession, hsteps] at h
    simp only [List.length_cons, List.range_succ_eq_map, List.map_cons, alookup,
      if_pos rfl, if_true, List.get?_cons_zero, Option.some.injEq] at h
    subst h
    constructor
    · rw [maybeStartTimer_status]
    · cases htc : st0.timerConfig with
      | none => left; rw [maybeStartTimer_timerStates_none _ _ htc]
      | some tc =>
        right
        refine ⟨st0, tc, List.mem_cons_self _ _, htc, ?_⟩
        rw [maybeStartTimer_timerStates_some _ _ tc htc]
        rfl

theorem advance_cases (r : Recipe) (s : Session) (now : Int)
    (s₂ : Session) (e : Option EngErr)
    (h : Engine.advance r s now = some (s₂, e)) :
    (s₂ = s ∧ s.status ≠ .active) ∨
    (s₂.status = .completed ∧ s₂.timerStates = s.timerStates) ∨
    (s.status = .active ∧ s₂.status = .active ∧
      (s₂.timerStates = s.timerStates ∨
        ∃ step tc, step ∈ r.steps ∧ step.timerConfig = some tc ∧
          s₂.timerStates = ainsert s.timerStates ("timer-" ++ step.id)
            (Engine.pendingTimer step tc))) := by
  unfold Engine.advance at h
  split at h
  · rename_i hs
    simp only [Option.some.injEq, Prod.mk.injEq] at h
    exact Or.inl ⟨h.1.symm, hs⟩
  · rename_i hs
    rw [not_not] at hs
    split at h
    · exact absurd h (by simp)
    · rename_i cur hcur
      simp only [] at h
      by_cases hge : s.currentStepIndex + 1 ≥ r.steps.length
      · rw [if_pos hge] at h
        simp only [Option.some.injEq, Prod.mk.injEq] at h
        refine Or.inr (Or.inl ⟨?_, ?_⟩) <;> rw [← h.1]
      · rw [if_neg hge] at h
        split at h
        · exact absurd h (by simp)
        · rename_i nxt hnxt
          split at h
          · exact absurd h (by simp)
          · rename_i step hstep
            simp only [Option.some.injEq, Prod.mk.injEq] at h
            obtain ⟨h₁, -⟩ := h
            have hmem : step ∈ r.steps := List.get?_mem hstep
            refine Or.inr (Or.inr ⟨hs, ?_, ?_⟩)
            · rw [← h₁, maybeStartTimer_status]; exact hs
            · cases htc : step.timerConfig with
              | none =>
                left
                rw [← h₁, maybeStartTimer_timerStates_none _ _ htc]
              | some tc =>
                right
                exact ⟨step, tc, hmem, htc,
                  by rw [← h₁, maybeStartTimer_timerStates_some _ _ tc htc]⟩

theorem skip_cases (r : Recipe) (s : Session) (now : Int)
    (s₂ : Session) (e : Option EngErr)
    (h : Engine.skip r s now = some (s₂, e)) :
    (s₂ = s ∧ s.status ≠ .active) ∨
    (s₂.status = .completed ∧ s₂.timerStates = s.timerStates) ∨
    (s.status = .active ∧ s₂.status = .active ∧
      (s₂.timerStates = s.timerStates ∨
        ∃ step tc, step ∈ r.steps ∧ step.timerConfig = some tc ∧
          s₂.timerStates = ainsert s.timerStates ("timer-" ++ step.id)
            (Engine.pendingTimer step tc))) := by
  unfold Engine.skip at h
  split at h
  · rename_i hs
    simp only [Option.some.injEq, Prod.mk.injEq] at h
    exact Or.inl ⟨h.1.symm, hs⟩
  · rename_i hs
    rw [not_not] at hs
    split at h
    · exact absurd h (by simp)
    · rename_i cur hcur
      simp only [] at h
      by_cases hge : s.currentStepIndex + 1 ≥ r.steps.length
      · rw [if_pos hge] at h
        simp only [Option.some.injEq, Prod.mk.injEq] at h
        refine Or.inr (Or.inl ⟨?_, ?_⟩) <;> rw [← h.1]
      · rw [if_neg hge] at h
        split at h
        · exact absurd h (by simp)
        · rename_i nxt hnxt
          split at h
          · exact absurd h (by simp)
          · rename_i step hstep
            simp only [Option.some.injEq, Prod.mk.injEq] at h
            obtain ⟨h₁, -⟩ := h
            have hmem : step ∈ r.steps := List.get?_mem hstep
            refine Or.inr (Or.inr ⟨hs, ?_, ?_⟩)
            · rw [← h₁, maybeStartTimer_status]; exact hs
            · cases htc : step.timerConfig with
              | none =>
                left
                rw [← h₁, maybeStartTimer_timerStates_none _ _ htc]
              | some tc =>
                right
                exact ⟨step, tc, hmem, htc,
                  by rw [← h₁, maybeStartTimer_timerStates_some _ _ tc htc]⟩

/-! ### Per-timer facts about the supervisor bodies -/

theorem mapCollect_cons (f : TimerState → TimerState × List Timer.Notification)
    (k : String) (ts : TimerState) (rest : List (String × TimerState)) :
    Timer.mapCollect f ((k, ts) :: rest) =
      ((k, (f ts).1) :: (Timer.mapCollect f rest).1,
       (f ts).2 ++ (Timer.mapCollect f rest).2) := by
  cases hf : f ts with
  | mk ts₂ ns =>
    cases hm : Timer.mapCollect f rest with
    | mk rest₂ ns₂ => simp [Timer.mapCollect, hf, hm]

theorem mem_mapCollect (f : TimerState → TimerState × List Timer.Notification)
    (l : List (String × TimerState)) (kv : String × TimerState)
    (h : kv ∈ (Timer.mapCollect f l).1) :
    ∃ w, (kv.1, w) ∈ l ∧ kv.2 = (f w).1 := by
  induction l with
  | nil => simp [Timer.mapCollect] at h
  | cons hd rest ih =>
    obtain ⟨k, ts⟩ := hd
    rw [mapCollect_cons] at h
    rcases List.mem_cons.mp h with h | h
    · exact ⟨ts, by simp [h], by simp [h]⟩
    · obtain ⟨w, hw, hkv⟩ := ih h
      exact ⟨w, List.mem_cons_of_mem _ hw, hkv⟩

theorem alookup_mapCollect (f : TimerState → TimerState × List Timer.Notification)
    (l : List (String × TimerState)) (k : String) :
    alookup (Timer.mapCollect f l).1 k = (alookup l k).map (fun ts => (f ts).1) := by
  induction l with
  | nil => simp [Timer.mapCollect, alookup]
  | cons hd rest ih =>
    obtain ⟨k₀, ts⟩ := hd
    rw [mapCollect_cons]
    by_cases hk : k₀ = k
    · simp [alookup, hk]
    · simp [alookup, hk, ih]

theorem tickOne_skips (cfg : Timer.SupervisorConfig) (now : Int) (ts : TimerState)
    (h : ts.status ≠ .running) : Timer.tickOne cfg now ts = (ts, []) := by
  unfold Timer.tickOne
  rw [if_pos h]

theorem tickOne_fires (cfg : Timer.SupervisorConfig) (now : Int) (ts : TimerState)
    (h : ts.status = .running) (h₂ : ts.remaining - cfg.tickInterval ≤ 0) :
    Timer.tickOne cfg now ts =
      ({ ts with
           remaining := 0
           status := .fired
           lastNotified := now
           escalationLevel := 1 },
       [{ urgent := true, message := Timer.escalationMessage ts }]) := by
  unfold Timer.tickOne
  rw [if_neg (by simp [h])]
  dsimp only
  rw [if_pos h₂]
  rfl

/-- A running timer that does not fire this tick keeps its status, its
escalation level and its lastNotified stamp, and its remaining drops by
exactly one tick. -/
theorem tickOne_keeps_running (cfg : Timer.SupervisorConfig) (now : Int)
    (ts : TimerState) (h : ts.status = .running)
    (h₂ : 0 < ts.remaining - cfg.tickInterval) :
    (Timer.tickOne cfg now ts).1.status = .running ∧
    (Timer.tickOne cfg now ts).1.remaining = ts.remaining - cfg.tickInterval ∧
    (Timer.tickOne cfg now ts).1.escalationLevel = ts.escalationLevel ∧
    (Timer.tickOne cfg now ts).1.lastNotified = ts.lastNotified ∧
    (Timer.tickOne cfg now ts).1.label = ts.label := by
  unfold Timer.tickOne
  rw [if_neg (by simp [h])]
  dsimp only
  rw [if_neg (by omega)]
  split
  · exact ⟨h, rfl, rfl, rfl, rfl⟩
  · split
    · split
      · split
        · exact ⟨h, rfl, rfl, rfl, rfl⟩
        · exact ⟨h, rfl, rfl, rfl, rfl⟩
      · split
        · exact ⟨h, rfl, rfl, rfl, rfl⟩
        · exact ⟨h, rfl, rfl, rfl, rfl⟩
    · exact ⟨h, rfl, rfl, rfl, rfl⟩

theorem escOne_not_fired (cfg : Timer.SupervisorConfig) (now : Int)
    (ts : TimerState) (h : ts.status ≠ .fired) :
    Timer.escOne cfg now ts = (ts, []) := by
  unfold Timer.escOne
  rw [if_pos h]

theorem escOne_capped (cfg : Timer.SupervisorConfig) (now : Int) (ts : TimerState)
    (h : ts.status = .fired) (h₂ : ts.escalationLevel > cfg.maxEscalation) :
    Timer.escOne cfg now ts = (ts, []) := by
  unfold Timer.escOne
  rw [if_neg (by simp [h]), if_pos h₂]

theorem escOne_cooldown (cfg : Timer.SupervisorConfig) (now : Int) (ts : TimerState)
    (h : ts.status = .fired) (h₂ : ¬ts.escalationLevel > cfg.maxEscalation)
    (h₃ : ts.lastNotified ≠ 0 ∧ now - ts.lastNotified < cfg.notifyCooldown) :
    Timer.escOne cfg now ts = (ts, []) := by
  unfold Timer.escOne
  rw [if_neg (by simp [h]), if_neg h₂, if_pos h₃]

theorem escOne_emits (cfg : Timer.SupervisorConfig) (now : Int) (ts : TimerState)
    (h : ts.status = .fired) (h₂ : ¬ts.escalationLevel > cfg.maxEscalation)
    (h₃ : ¬(ts.lastNotified ≠ 0 ∧ now - ts.lastNotified < cfg.notifyCooldown)) :
    Timer.escOne cfg now ts =
      ({ ts with
           lastNotified := now
           escalationLevel := ts.escalationLevel + 1 },
       [{ urgent := false, message := Timer.escalationMessage ts }]) := by
  unfold Timer.escOne
  rw [if_neg (by simp [h]), if_neg h₂, if_neg h₃]

/-- The escalation pass never changes a timer's status or remaining, and
never lowers its escalation level. -/
theorem escOne_keeps (cfg : Timer.SupervisorConfig) (now : Int) (ts : TimerState) :
    (Timer.escOne cfg now ts).1.status = ts.status ∧
    (Timer.escOne cfg now ts).1.remaining = ts.remaining ∧
    ts.escalationLevel ≤ (Timer.escOne cfg now ts).1.escalationLevel := by
  unfold Timer.escOne
  split
  · exact ⟨rfl, rfl, le_refl _⟩
  · split
    · exact ⟨rfl, rfl, le_refl _⟩
    · split
      · exact ⟨rfl, rfl, le_refl _⟩
      · exact ⟨rfl, rfl, by dsimp only; omega⟩

/-- The first pass can only leave the status alone or fire the timer. -/
theorem tickOne_status (cfg : Timer.SupervisorConfig) (now : Int) (ts : TimerState) :
    (Timer.tickOne cfg now ts).1.status = ts.status ∨
    (Timer.tickOne cfg now ts).1.status = .fired := by
  unfold Timer.tickOne
  split
  · exact Or.inl rfl
  · dsimp only
    split
    · exact Or.inr rfl
    · split
      · exact Or.inl rfl
      · split
        · split
          · split
            · exact Or.inl rfl
            · exact Or.inl rfl
          · split
            · exact Or.inl rfl
            · exact Or.inl rfl
        · exact Or.inl rfl

theorem TimerOk_congr (a b : TimerState) (hs : b.status = a.status)
    (hrem : b.remaining = a.remaining) (h : TimerOk a) : TimerOk b := by
  unfold TimerOk at h ⊢
  rw [hs, hrem]
  exact h

theorem tickOne_TimerOk (cfg : Timer.SupervisorConfig) (now : Int)
    (ts : TimerState) (h : TimerOk ts) : TimerOk (Timer.tickOne cfg now ts).1 := by
  by_cases hrun : ts.status = .running
  · by_cases hrem : ts.remaining - cfg.tickInterval ≤ 0
    · rw [tickOne_fires cfg now ts hrun hrem]
      exact ⟨fun _ => rfl, by simp⟩
    · obtain ⟨h₁, h₂, -, -, -⟩ := tickOne_keeps_running cfg now ts hrun (by omega)
      refine ⟨fun hf => ?_, fun _ => ?_⟩
      · rw [h₁] at hf; exact absurd hf (by simp)
      · rw [h₂]; omega
  · rw [tickOne_skips cfg now ts hrun]
    exact h

theorem escOne_TimerOk (cfg : Timer.SupervisorConfig) (now : Int)
    (ts : TimerState) (h : TimerOk ts) : TimerOk (Timer.escOne cfg now ts).1 := by
  obtain ⟨h₁, h₂, -⟩ := escOne_keeps cfg now ts
  exact TimerOk_congr ts _ h₁ h₂ h

theorem processSession_status (cfg : Timer.SupervisorConfig) (now : Int)
    (s : Session) : (Timer.processSession cfg now s).1.status = s.status := by
  unfold Timer.processSession
  split
  · rfl
  · cases h₁ : Timer.mapCollect (Timer.tickOne cfg now) s.timerStates with
    | mk l₁ ns₁ =>
      cases h₂ : Timer.mapCollect (Timer.escOne cfg now) l₁ with
      | mk l₂ ns₂ => simp

theorem processSession_timerStates (cfg : Timer.SupervisorConfig) (now : Int)
    (s : Session) (h : s.status = .active) :
    (Timer.processSession cfg now s).1.timerStates =
      (Timer.mapCollect (Timer.escOne cfg now)
        (Timer.mapCollect (Timer.tickOne cfg now) s.timerStates).1).1 := by
  unfold Timer.processSession
  rw [if_neg (by simp [h])]

theorem processSession_skips (cfg : Timer.SupervisorConfig) (now : Int)
    (s : Session) (h : s.status ≠ .active) :
    Timer.processSession cfg now s = (s, []) := by
  unfold Timer.processSession
  rw [if_pos h]

/-! ### Result shapes of the remaining engine operations -/

theorem pause_not_active (s : Session) (now : Int) (h : s.status ≠ .active) :
    Engine.pause s now = (s, some .sessionNotActive) := by
  simp [Engine.pause, h]

theorem pause_active (s : Session) (now : Int) (h : s.status = .active) :
    Engine.pause s now =
      ({ s with
           status := .paused
           updatedAt := now
           timerStates := amap
             (fun ts => if ts.status = .running then { ts with status := .paused } else ts)
             s.timerStates }, none) := by
  simp [Engine.pause, h]

theorem resume_not_paused (s : Session) (now : Int) (h : s.status ≠ .paused) :
    Engine.resume s now = (s, some .sessionPaused) := by
  simp [Engine.resume, h]

theorem resume_paused (s : Session) (now : Int) (h : s.status = .paused) :
    Engine.resume s now =
      ({ s with
           status := .active
           updatedAt := now
           timerStates := amap
             (fun ts => if ts.status = .paused then { ts with status := .running } else ts)
             s.timerStates }, none) := by
  simp [Engine.resume, h]

theorem startPendingTimers_pos (s : Session) (now : Int)
    (h : 0 < (s.timerStates.filter (fun kv => kv.2.status = .pending)).length) :
    Engine.startPendingTimers s now =
      ({ s with
           timerStates := amap
             (fun ts => if ts.status = .pending then { ts with status := .running } else ts)
             s.timerStates
           updatedAt := now },
       (s.timerStates.filter (fun kv => kv.2.status = .pending)).length) := by
  simp only [Engine.startPendingTimers]
  rw [if_pos h]

theorem startPendingTimers_zero (s : Session) (now : Int)
    (h : ¬0 < (s.timerStates.filter (fun kv => kv.2.status = .pending)).length) :
    Engine.startPendingTimers s now = (s, 0) := by
  simp only [Engine.startPendingTimers]
  rw [if_neg h]

theorem dismissTimer_cases (s : Session) (timerID : String) (now : Int) :
    (Engine.dismissTimer s timerID now).1 = s ∨
    ∃ ts, alookup s.timerStates timerID = some ts ∧
      (Engine.dismissTimer s timerID now).1 =
        { s with
            timerStates := ainsert s.timerStates timerID { ts with status := .dismissed }
            updatedAt := now } := by
  unfold Engine.dismissTimer
  cases hts : alookup s.timerStates timerID with
  | none => exact Or.inl rfl
  | some ts =>
    dsimp only
    by_cases hd : ts.status ≠ .running ∧ ts.status ≠ .fired
    · rw [if_pos hd]
      exact Or.inl rfl
    · rw [if_neg hd]
      exact Or.inr ⟨ts, rfl, rfl⟩

theorem dismissTimer_status (s : Session) (timerID : String) (now : Int) :
    (Engine.dismissTimer s timerID now).1.status = s.status := by
  rcases dismissTimer_cases s timerID now with h | ⟨ts, -, h⟩ <;> rw [h]

/-! ### The reachability invariants -/

/-- Every timer of a reachable session satisfies `TimerOk`, provided the
recipe's timer configs have positive durations. -/
theorem reachable_timersOk (r : Recipe) (hr : PosTimerDurations r)
    (s : Session) (h : Reachable r s) :
    ∀ kv ∈ s.timerStates, TimerOk kv.2 := by
  induction h with
  | start dflt servings now id s hs =>
    intro kv hkv
    rcases (startSession_cases r dflt id servings now s hs).2 with
      h₀ | ⟨step, tc, hmem, htc, h₀⟩
    · rw [h₀] at hkv; simp at hkv
    · rw [h₀] at hkv
      rcases List.mem_cons.mp hkv with hkv | hkv
      · rw [hkv]
        refine ⟨fun hf => absurd hf (by simp [Engine.pendingTimer]), fun _ => ?_⟩
        have := hr step hmem tc htc
        simpa [Engine.pendingTimer] using this
      · simp at hkv
  | advance s s₂ e now hre hs ih =>
    intro kv hkv
    rcases advance_cases r s now s₂ e hs with
      ⟨h₀, -⟩ | ⟨-, h₀⟩ | ⟨-, -, h₀ | ⟨step, tc, hmem, htc, h₀⟩⟩
    · rw [h₀] at hkv; exact ih kv hkv
    · rw [h₀] at hkv; exact ih kv hkv
    · rw [h₀] at hkv; exact ih kv hkv
    · rw [h₀] at hkv
      rcases mem_ainsert _ _ _ _ hkv with hkv | hkv
      · rw [hkv]
        refine ⟨fun hf => absurd hf (by simp [Engine.pendingTimer]), fun _ => ?_⟩
        have := hr step hmem tc htc
        simpa [Engine.pendingTimer] using this
      · exact ih kv hkv
  | skipStep s s₂ e now hre hs ih =>
    intro kv hkv
    rcases skip_cases r s now s₂ e hs with
      ⟨h₀, -⟩ | ⟨-, h₀⟩ | ⟨-, -, h₀ | ⟨step, tc, hmem, htc, h₀⟩⟩
    · rw [h₀] at hkv; exact ih kv hkv
    · rw [h₀] at hkv; exact ih kv hkv
    · rw [h₀] at hkv; exact ih kv hkv
    · rw [h₀] at hkv
      rcases mem_ainsert _ _ _ _ hkv with hkv | hkv
      · rw [hkv]
        refine ⟨fun hf => absurd hf (by simp [Engine.pendingTimer]), fun _ => ?_⟩
        have := hr step hmem tc htc
        simpa [Engine.pendingTimer] using this
      · exact ih kv hkv
  | pause s now hre ih =>
    intro kv hkv
    by_cases hs : s.status = .active
    · rw [pause_active s now hs] at hkv
      dsimp only at hkv
      obtain ⟨w, hw, hkv₂⟩ := mem_amap _ _ _ hkv
      have hok := ih (kv.1, w) hw
      rw [hkv₂]
      by_cases hws : w.status = .running
      · rw [if_pos hws]
        exact ⟨fun hf => absurd hf (by simp), fun _ => hok.2 (Or.inr (Or.inl hws))⟩
      · rw [if_neg hws]
        exact hok
    · rw [pause_not_active s now hs] at hkv
      exact ih kv hkv
  | resume s now hre ih =>
    intro kv hkv
    by_cases hs : s.status = .paused
    · rw [resume_paused s now hs] at hkv
      dsimp only at hkv
      obtain ⟨w, hw, hkv₂⟩ := mem_amap _ _ _ hkv
      have hok := ih (kv.1, w) hw
      rw [hkv₂]
      by_cases hws : w.status = .paused
      · rw [if_pos hws]
        exact ⟨fun hf => absurd hf (by simp), fun _ => hok.2 (Or.inr (Or.inr hws))⟩
      · rw [if_neg hws]
        exact hok
    · rw [resume_not_paused s now hs] at hkv
      exact ih kv hkv
  | abandon s now hre ih =>
    intro kv hkv
    exact ih kv hkv
  | startPendingTimers s now hre ih =>
    intro kv hkv
    by_cases hp : 0 < (s.timerStates.filter (fun kv => kv.2.status = .pending)).length
    · rw [startPendingTimers_pos s now hp] at hkv
      dsimp only at hkv
      obtain ⟨w, hw, hkv₂⟩ := mem_amap _ _ _ hkv
      have hok := ih (kv.1, w) hw
      rw [hkv₂]
      by_cases hws : w.status = .pending
      · rw [if_pos hws]
        exact ⟨fun hf => absurd hf (by simp), fun _ => hok.2 (Or.inl hws)⟩
      · rw [if_neg hws]
        exact hok
    · rw [startPendingTimers_zero s now hp] at hkv
      exact ih kv hkv
  | dismissTimer s timerID now hre ih =>
    intro kv hkv
    rcases dismissTimer_cases s timerID now with h₀ | ⟨ts, hts, h₀⟩
    · rw [h₀] at hkv; exact ih kv hkv
    · rw [h₀] at hkv
      dsimp only at hkv
      rcases mem_ainsert _ _ _ _ hkv with hkv | hkv
      · rw [hkv]
        exact ⟨fun hf => absurd hf (by simp), fun hp => by
          rcases hp with hp | hp | hp <;> simp at hp⟩
      · exact ih kv hkv
  | supervise s cfg now hre ih =>
    intro kv hkv
    by_cases hact : s.status = .active
    · rw [processSession_timerStates cfg now s hact] at hkv
      obtain ⟨w₁, hw₁, hkv₂⟩ := mem_mapCollect _ _ _ hkv
      obtain ⟨w, hw, hw₁₂⟩ := mem_mapCollect _ _ _ hw₁
      dsimp only at hw hw₁₂
      have hok := ih (kv.1, w) hw
      rw [hkv₂, hw₁₂]
      exact escOne_TimerOk cfg now _ (tickOne_TimerOk cfg now w hok)
    · rw [processSession_skips cfg now s hact] at hkv
      exact ih kv hkv

/-- In a reachable active session no timer is paused. -/
theorem reachable_noPaused (r : Recipe) (s : Session) (h : Reachable r s) :
    s.status = .active → ∀ kv ∈ s.timerStates, kv.2.status ≠ .paused := by
  induction h with
  | start dflt servings now id s hs =>
    intro _ kv hkv
    rcases (startSession_cases r dflt id servings now s hs).2 with
      h₀ | ⟨step, tc, hmem, htc, h₀⟩
    · rw [h₀] at hkv; simp at hkv
    · rw [h₀] at hkv
      rcases List.mem_cons.mp hkv with hkv | hkv
      · rw [hkv]; simp [Engine.pendingTimer]
      · simp at hkv
  | advance s s₂ e now hre hs ih =>
    intro hact kv hkv
    rcases advance_cases r s now s₂ e hs with
      ⟨h₀, -⟩ | ⟨h₁, -⟩ | ⟨h₁, -, h₀ | ⟨step, tc, hmem, htc, h₀⟩⟩
    · rw [h₀] at hkv hact; exact ih hact kv hkv
    · rw [hact] at h₁; simp at h₁
    · rw [h₀] at hkv; exact ih h₁ kv hkv
    · rw [h₀] at hkv
      rcases mem_ainsert _ _ _ _ hkv with hkv | hkv
      · rw [hkv]; simp [Engine.pendingTimer]
      · exact ih h₁ kv hkv
  | skipStep s s₂ e now hre hs ih =>
    intro hact kv hkv
    rcases skip_cases r s now s₂ e hs with
      ⟨h₀, -⟩ | ⟨h₁, -⟩ | ⟨h₁, -, h₀ | ⟨step, tc, hmem, htc, h₀⟩⟩
    · rw [h₀] at hkv hact; exact ih hact kv hkv
    · rw [hact] at h₁; simp at h₁
    · rw [h₀] at hkv; exact ih h₁ kv hkv
    · rw [h₀] at hkv
      rcases mem_ainsert _ _ _ _ hkv with hkv | hkv
      · rw [hkv]; simp [Engine.pendingTimer]
      · exact ih h₁ kv hkv
  | pause s now hre ih =>
    intro hact kv hkv
    by_cases hs : s.status = .active
    · rw [pause_active s now hs] at hact
      simp at hact
    · rw [pause_not_active s now hs] at hact hkv
      exact ih hact kv hkv
  | resume s now hre ih =>
    intro hact kv hkv
    by_cases hs : s.status = .paused
    · rw [resume_paused s now hs] at hkv
      dsimp only at hkv
      obtain ⟨w, hw, hkv₂⟩ := mem_amap _ _ _ hkv
      rw [hkv₂]
      by_cases hws : w.status = .paused
      · rw [if_pos hws]; simp
      · rw [if_neg hws]; exact hws
    · rw [resume_not_paused s now hs] at hact hkv
      exact ih hact kv hkv
  | abandon s now hre ih =>
    intro hact kv hkv
    simp [Engine.abandon] at hact
  | startPendingTimers s now hre ih =>
    intro hact kv hkv
    by_cases hp : 0 < (s.timerStates.filter (fun kv => kv.2.status = .pending)).length
    · rw [startPendingTimers_pos s now hp] at hact hkv
      dsimp only at hact hkv
      obtain ⟨w, hw, hkv₂⟩ := mem_amap _ _ _ hkv
      rw [hkv₂]
      by_cases hws : w.status = .pending
      · rw [if_pos hws]; simp
      · rw [if_neg hws]
        exact ih hact (kv.1, w) hw
    · rw [startPendingTimers_zero s now hp] at hact hkv
      exact ih hact kv hkv
  | dismissTimer s timerID now hre ih =>
    intro hact kv hkv
    rcases dismissTimer_cases s timerID now with h₀ | ⟨ts, hts, h₀⟩
    · rw [h₀] at hact hkv; exact ih hact kv hkv
    · rw [h₀] at hact hkv
      dsimp only at hact hkv
      rcases mem_ainsert _ _ _ _ hkv with hkv | hkv
      · rw [hkv]; simp
      · exact ih hact kv hkv
  | supervise s cfg now hre ih =>
    intro hact kv hkv
    rw [processSession_status] at hact
    rw [processSession_timerStates cfg now s hact] at hkv
    obtain ⟨w₁, hw₁, hkv₂⟩ := mem_mapCollect _ _ _ hkv
    obtain ⟨w, hw, hw₁₂⟩ := mem_mapCollect _ _ _ hw₁
    dsimp only at hw hw₁₂
    have hwp : w.status ≠ .paused := ih hact (kv.1, w) hw
    rw [hkv₂, (escOne_keeps cfg now _).1, hw₁₂]
    rcases tickOne_status cfg now w with h₀ | h₀
    · rw [h₀]; exact hwp
    · rw [h₀]; simp

/-! ### Claim C1: advance -/

/-- Claim C1: for every active session (with step states for every step
index, as `startSession` establishes), advance marks the current step done
with completedAt = now; if the next 0-based index is past the end of the
recipe's step list it sets the session status to completed and returns the
no-more-steps error; otherwise it marks the next step active
(startedAt = now), makes it the current step, and materializes a pending
timer for it when that step has a timer config, leaving every other
timer's state — in particular every running timer of an earlier step —
unchanged.  For every session whose status is not active, advance fails
with session-not-active and changes nothing. -/
theorem c1_advance (recipe : Recipe) (s : Session) (now : Int)
    (hwf : ∀ i, i < recipe.steps.length → (alookup s.stepStates i).isSome)
    (hidx : s.currentStepIndex < recipe.steps.length) :
    (s.status ≠ .active →
      Engine.advance recipe s now = some (s, some .sessionNotActive)) ∧
    (s.status = .active → s.currentStepIndex + 1 ≥ recipe.steps.length →
      ∃ cur, alookup s.stepStates s.currentStepIndex = some cur ∧
        Engine.advance recipe s now =
          some ({ s with
                    stepStates := ainsert s.stepStates s.currentStepIndex
                      { cur with status := .done, completedAt := now }
                    status := .completed
                    updatedAt := now }, some .noMoreSteps)) ∧
    (s.status = .active → s.currentStepIndex + 1 < recipe.steps.length →
      ∃ cur nxt step s₂,
        alookup s.stepStates s.currentStepIndex = some cur ∧
        alookup s.stepStates (s.currentStepIndex + 1) = some nxt ∧
        recipe.steps.get? (s.currentStepIndex + 1) = some step ∧
        Engine.advance recipe s now = some (s₂, none) ∧
        s₂.status = .active ∧
        s₂.currentStepIndex = s.currentStepIndex + 1 ∧
        alookup s₂.stepStates s.currentStepIndex =
          some { cur with status := .done, completedAt := now } ∧
        alookup s₂.stepStates (s.currentStepIndex + 1) =
          some { nxt with status := .active, startedAt := now } ∧
        (∀ tc, step.timerConfig = some tc →
          alookup s₂.timerStates ("timer-" ++ step.id) =
            some (Engine.pendingTimer step tc)) ∧
        (step.timerConfig = none → s₂.timerStates = s.timerStates) ∧
        (∀ tid, tid ≠ "timer-" ++ step.id →
          alookup s₂.timerStates tid = alookup s.timerStates tid)) := by
  refine ⟨fun hs => by simp [Engine.advance, hs], fun hs hlast => ?_, fun hs hmore => ?_⟩
  · obtain ⟨cur, hcur⟩ := Option.isSome_iff_exists.mp (hwf _ hidx)
    refine ⟨cur, hcur, ?_⟩
    simp [Engine.advance, hs, hcur, hlast]
  · obtain ⟨cur, hcur⟩ := Option.isSome_iff_exists.mp (hwf _ hidx)
    obtain ⟨nxt, hnxt⟩ := Option.isSome_iff_exists.mp (hwf _ hmore)
    have hne : s.currentStepIndex + 1 ≠ s.currentStepIndex := by omega
    have hnxt₁ : alookup (ainsert s.stepStates s.currentStepIndex
        { cur with status := .done, completedAt := now }) (s.currentStepIndex + 1) =
        some nxt := by
      rw [alookup_ainsert_ne _ _ _ _ (Ne.symm hne)]
      exact hnxt
    have hstepSome : (recipe.steps.get? (s.currentStepIndex + 1)).isSome := by
      rw [List.get?_eq_get hmore]; rfl
    obtain ⟨step, hstep⟩ := Option.isSome_iff_exists.mp hstepSome
    have hnlast : ¬(s.currentStepIndex + 1 ≥ recipe.steps.length) := by omega
    refine ⟨cur, nxt, step,
      Engine.maybeStartTimer
        { s with
            stepStates := ainsert
              (ainsert s.stepStates s.currentStepIndex
                { cur with status := .done, completedAt := now })
              (s.currentStepIndex + 1) { nxt with status := .active, startedAt := now }
            currentStepIndex := s.currentStepIndex + 1
            updatedAt := now } step,
      hcur, hnxt, hstep, ?_, ?_, ?_, ?_, ?_, ?_, ?_, ?_⟩
    · simp only [Engine.advance, hs, hcur, hnxt₁, hstep]
      simp [hnlast]
    · rw [maybeStartTimer_status]; exact hs
    · rw [maybeStartTimer_currentStepIndex]
    · rw [maybeStartTimer_stepStates]
      rw [alookup_ainsert_ne _ _ _ _ hne, alookup_ainsert_self]
    · rw [maybeStartTimer_stepStates]
      rw [alookup_ainsert_self]
    · intro tc htc
      rw [maybeStartTimer_timerStates_some _ _ tc htc, alookup_ainsert_self]
    · intro htc
      rw [maybeStartTimer_timerStates_none _ _ htc]
    · intro tid htid
      cases htc : step.timerConfig with
      | none => rw [maybeStartTimer_timerStates_none _ _ htc]
      | some tc =>
        rw [maybeStartTimer_timerStates_some _ _ tc htc,
          alookup_ainsert_ne _ _ _ _ (Ne.symm htid)]

/-- Claim C1 witness: advance fails on the paused sample session and
advances the active sample session to step 1. -/
theorem c1_advance_witness :
    (Engine.advance sampleRecipe { sampleSession0 with status := .paused } 130 =
      some ({ sampleSession0 with status := .paused }, some .sessionNotActive)) ∧
    (∃ cur nxt step s₂,
      alookup sampleSession0.stepStates sampleSession0.currentStepIndex = some cur ∧
      alookup sampleSession0.stepStates (sampleSession0.currentStepIndex + 1) = some nxt ∧
      sampleRecipe.steps.get? (sampleSession0.currentStepIndex + 1) = some step ∧
      Engine.advance sampleRecipe sampleSession0 130 = some (s₂, none) ∧
      s₂.status = .active ∧
      s₂.currentStepIndex = sampleSession0.currentStepIndex + 1 ∧
      alookup s₂.stepStates sampleSession0.currentStepIndex =
        some { cur with status := .done, completedAt := 130 } ∧
      alookup s₂.stepStates (sampleSession0.currentStepIndex + 1) =
        some { nxt with status := .active, startedAt := 130 } ∧
      (∀ tc, step.timerConfig = some tc →
        alookup s₂.timerStates ("timer-" ++ step.id) =
          some (Engine.pendingTimer step tc)) ∧
      (step.timerConfig = none → s₂.timerStates = sampleSession0.timerStates) ∧
      (∀ tid, tid ≠ "timer-" ++ step.id →
        alookup s₂.timerStates tid = alookup sampleSession0.timerStates tid)) :=
  ⟨(c1_advance sampleRecipe { sampleSession0 with status := .paused } 130
      (by decide) (by decide)).1 (by decide),
   (c1_advance sampleRecipe sampleSession0 130 (by decide) (by decide)).2.2
      rfl (by decide)⟩

/-! ### Shared facts about the sample data -/

theorem sampleRecipe_posDurations : PosTimerDurations sampleRecipe := by
  intro step hmem tc htc
  simp only [sampleRecipe, List.mem_cons, List.not_mem_nil, or_false] at hmem
  rcases hmem with h | h <;> subst h
  · simp only [Option.some.injEq] at htc
    rw [← htc]
    decide
  · simp at htc

theorem sampleSession0_reachable : Reachable sampleRecipe sampleSession0 :=
  Reachable.start 2 2 100 "sess1" sampleSession0 (by decide)

theorem sampleSession1_reachable : Reachable sampleRecipe sampleSession1 := by
  have h := Reachable.startPendingTimers sampleSession0 110 sampleSession0_reachable
  rwa [show (Engine.startPendingTimers sampleSession0 110).1 = sampleSession1 from
    by decide] at h

theorem sampleSession2_reachable : Reachable sampleRecipe sampleSession2 := by
  have h := Reachable.dismissTimer sampleSession1 "timer-s1" 120 sampleSession1_reachable
  rwa [show (Engine.dismissTimer sampleSession1 "timer-s1" 120).1 = sampleSession2 from
    by decide] at h

/-! ### Claim C3: pause then resume restores every timer -/

theorem amap_amap_id {α : Type} (f g : TimerState → TimerState)
    (l : List (α × TimerState)) (h : ∀ kv ∈ l, g (f kv.2) = kv.2) :
    amap g (amap f l) = l := by
  induction l with
  | nil => rfl
  | cons hd rest ih =>
    have h₁ := h hd (List.mem_cons_self _ _)
    have hrest : ∀ kv ∈ rest, g (f kv.2) = kv.2 :=
      fun kv hkv => h kv (List.mem_cons_of_mem _ hkv)
    show (hd.1, g (f hd.2)) :: amap g (amap f rest) = hd :: rest
    rw [h₁, Prod.mk.eta, ih hrest]

/-- Resuming undoes pausing on any timer that was not already paused. -/
theorem pause_resume_timer_id (w : TimerState) (h : w.status ≠ .paused) :
    (fun ts => if ts.status = .paused then { ts with status := .running } else ts)
      ((fun ts => if ts.status = .running then { ts with status := .paused } else ts) w) =
      w := by
  cases w with
  | mk idf stepIdf labelf durationf remainingf statusf lastNotifiedf
      lastRemindedAtf warnedAlmostf escalationLevelf =>
    cases statusf <;> simp_all

/-- Claim C3: on a reachable active session, pause succeeds, sets the
session paused and turns exactly the running timers paused (all others are
untouched); an immediate resume succeeds, sets the session active and turns
exactly the paused timers running; the round trip leaves the timer map —
statuses and remaining — identical to what it was before the pause. -/
theorem c3_pause_resume_roundtrip (r : Recipe) (s : Session) (now₁ now₂ : Int)
    (hre : Reachable r s) (hs : s.status = .active) :
    (Engine.pause s now₁).2 = none ∧
    (Engine.pause s now₁).1.status = .paused ∧
    (∀ tid ts, alookup s.timerStates tid = some ts →
      alookup (Engine.pause s now₁).1.timerStates tid =
        some (if ts.status = .running then { ts with status := .paused } else ts)) ∧
    (Engine.resume (Engine.pause s now₁).1 now₂).2 = none ∧
    (Engine.resume (Engine.pause s now₁).1 now₂).1.status = .active ∧
    (∀ tid ts, alookup (Engine.pause s now₁).1.timerStates tid = some ts →
      alookup (Engine.resume (Engine.pause s now₁).1 now₂).1.timerStates tid =
        some (if ts.status = .paused then { ts with status := .running } else ts)) ∧
    (Engine.resume (Engine.pause s now₁).1 now₂).1.timerStates = s.timerStates := by
  have hp := pause_active s now₁ hs
  have hps : (Engine.pause s now₁).1.status = .paused := by rw [hp]
  have hr2 := resume_paused (Engine.pause s now₁).1 now₂ hps
  refine ⟨by rw [hp], hps, ?_, by rw [hr2], by rw [hr2], ?_, ?_⟩
  · intro tid ts hts
    simp only [hp, alookup_amap, hts]
    rfl
  · intro tid ts hts
    simp only [hr2, alookup_amap, hts]
    rfl
  · simp only [hr2, hp]
    exact amap_amap_id
      (fun ts => if ts.status = .running then { ts with status := .paused } else ts)
      (fun ts => if ts.status = .paused then { ts with status := .running } else ts)
      s.timerStates
      (fun kv hkv => pause_resume_timer_id kv.2 (reachable_noPaused r s hre hs kv hkv))

/-- Claim C3 witness: the round trip on the sample session with its running
timer. -/
theorem c3_pause_resume_roundtrip_witness :
    (Engine.pause sampleSession1 200).2 = none ∧
    (Engine.pause sampleSession1 200).1.status = .paused ∧
    (∀ tid ts, alookup sampleSession1.timerStates tid = some ts →
      alookup (Engine.pause sampleSession1 200).1.timerStates tid =
        some (if ts.status = .running then { ts with status := .paused } else ts)) ∧
    (Engine.resume (Engine.pause sampleSession1 200).1 210).2 = none ∧
    (Engine.resume (Engine.pause sampleSession1 200).1 210).1.status = .active ∧
    (∀ tid ts, alookup (Engine.pause sampleSession1 200).1.timerStates tid = some ts →
      alookup (Engine.resume (Engine.pause sampleSession1 200).1 210).1.timerStates tid =
        some (if ts.status = .paused then { ts with status := .running } else ts)) ∧
    (Engine.resume (Engine.pause sampleSession1 200).1 210).1.timerStates =
      sampleSession1.timerStates :=
  c3_pause_resume_roundtrip sampleRecipe sampleSession1 200 210
    sampleSession1_reachable rfl

/-! ### Claim C4: remaining = 0 iff fired or dismissed -/

/-- Claim C4, counterexample: in the reachable state obtained by starting
the sample session, starting its pending timer and dismissing it while
running, the dismissed timer keeps remaining = 480, so "remaining = 0 iff
status is fired or dismissed" fails (a timer dismissed while running does
not end with remaining 0). -/
theorem c4_counterexample :
    Engine.startSession sampleRecipe 2 "sess1" 2 100 = some sampleSession0 ∧
    Engine.startPendingTimers sampleSession0 110 = (sampleSession1, 1) ∧
    Engine.dismissTimer sampleSession1 "timer-s1" 120 = (sampleSession2, none) ∧
    Reachable sampleRecipe sampleSession2 ∧
    PosTimerDurations sampleRecipe ∧
    alookup sampleSession2.timerStates "timer-s1" = some
      { id := "timer-s1", stepId := "s1", label := "Water boiling",
        duration := 480, remaining := 480, status := .dismissed,
        lastNotified := 0, lastRemindedAt := 0, warnedAlmost := false,
        escalationLevel := 0 } ∧
    ¬(∀ kv ∈ sampleSession2.timerStates,
        (kv.2.remaining = 0 ↔ (kv.2.status = .fired ∨ kv.2.status = .dismissed))) :=
  ⟨by decide, by decide, by decide, sampleSession2_reachable,
   sampleRecipe_posDurations, by decide, by decide⟩

/-- Claim C4 (amended): in every session state reachable through the engine
and supervisor operations (over a recipe whose timer configs have positive
durations), each timer satisfies: if its status is fired then remaining = 0,
and if remaining = 0 then its status is fired or dismissed.  The converse
direction for dismissed timers does not hold: dismissing a still-running
timer keeps its positive remaining (see the counterexample). -/
theorem c4_remaining_invariant (r : Recipe) (hr : PosTimerDurations r)
    (s : Session) (h : Reachable r s) :
    ∀ kv ∈ s.timerStates,
      (kv.2.status = .fired → kv.2.remaining = 0) ∧
      (kv.2.remaining = 0 → kv.2.status = .fired ∨ kv.2.status = .dismissed) := by
  intro kv hkv
  have hok := reachable_timersOk r hr s h kv hkv
  refine ⟨hok.1, fun hrem => ?_⟩
  cases hst : kv.2.status with
  | pending => exact absurd hrem (by have := hok.2 (Or.inl hst); omega)
  | running => exact absurd hrem (by have := hok.2 (Or.inr (Or.inl hst)); omega)
  | paused => exact absurd hrem (by have := hok.2 (Or.inr (Or.inr hst)); omega)
  | fired => exact Or.inl rfl
  | dismissed => exact Or.inr rfl

/-- Claim C4 witness: the amended invariant evaluated on the sample
session's running timer entry. -/
theorem c4_remaining_invariant_witness :
    (sampleTimer1.status = .fired → sampleTimer1.remaining = 0) ∧
    (sampleTimer1.remaining = 0 →
      sampleTimer1.status = .fired ∨ sampleTimer1.status = .dismissed) :=
  c4_remaining_invariant sampleRecipe sampleRecipe_posDurations
    sampleSession1 sampleSession1_reachable ("timer-s1", sampleTimer1)
    (by decide)

/-! ### One full tick of a single timer, and iterated runs -/

/-- The escalation pass is silent inside the cooldown window, whatever the
escalation level. -/
theorem escOne_quiet (cfg : Timer.SupervisorConfig) (now : Int) (ts : TimerState)
    (h : ts.status = .fired)
    (h₃ : ts.lastNotified ≠ 0 ∧ now - ts.lastNotified < cfg.notifyCooldown) :
    Timer.escOne cfg now ts = (ts, []) := by
  by_cases h₂ : ts.escalationLevel > cfg.maxEscalation
  · exact escOne_capped cfg now ts h h₂
  · exact escOne_cooldown cfg now ts h h₂ h₃

theorem timerTick_eq (cfg : Timer.SupervisorConfig) (now : Int) (ts : TimerState) :
    Timer.timerTick cfg now ts =
      ((Timer.escOne cfg now (Timer.tickOne cfg now ts).1).1,
       (Timer.tickOne cfg now ts).2 ++
         (Timer.escOne cfg now (Timer.tickOne cfg now ts).1).2) := by
  unfold Timer.timerTick
  cases h₁ : Timer.tickOne cfg now ts with
  | mk a b =>
    cases h₂ : Timer.escOne cfg now a with
    | mk c d => simp [h₁, h₂]

theorem timerRun_succ (cfg : Timer.SupervisorConfig) (n : Nat) (tm : Int)
    (ts : TimerState) :
    Timer.timerRun cfg (n + 1) tm ts =
      Timer.timerRun cfg n (tm + cfg.tickInterval)
        (Timer.timerTick cfg (tm + cfg.tickInterval) ts).1 := rfl

theorem runTicks_succ (cfg : Timer.SupervisorConfig) (n : Nat) (tm : Int)
    (s : Session) :
    Timer.runTicks cfg (n + 1) tm s =
      ((Timer.runTicks cfg n (tm + cfg.tickInterval)
          (Timer.processSession cfg (tm + cfg.tickInterval) s).1).1,
       (Timer.processSession cfg (tm + cfg.tickInterval) s).2.map
          (fun nf => (tm + cfg.tickInterval, nf)) ++
        (Timer.runTicks cfg n (tm + cfg.tickInterval)
          (Timer.processSession cfg (tm + cfg.tickInterval) s).1).2) := by
  rfl

theorem alookup_processSession (cfg : Timer.SupervisorConfig) (now : Int)
    (s : Session) (k : String) (h : s.status = .active) :
    alookup (Timer.processSession cfg now s).1.timerStates k =
      (alookup s.timerStates k).map (fun ts => (Timer.timerTick cfg now ts).1) := by
  rw [processSession_timerStates cfg now s h, alookup_mapCollect, alookup_mapCollect]
  cases alookup s.timerStates k with
  | none => rfl
  | some ts => simp [timerTick_eq]

theorem runTicks_active (cfg : Timer.SupervisorConfig) (n : Nat) :
    ∀ (tm : Int) (s : Session), s.status = .active →
      (Timer.runTicks cfg n tm s).1.status = .active := by
  induction n with
  | zero => intro tm s h; exact h
  | succ n ih =>
    intro tm s h
    rw [runTicks_succ]
    exact ih _ _ (by rw [processSession_status]; exact h)

theorem alookup_runTicks (cfg : Timer.SupervisorConfig) (n : Nat) :
    ∀ (tm : Int) (s : Session) (k : String), s.status = .active →
      alookup (Timer.runTicks cfg n tm s).1.timerStates k =
        (alookup s.timerStates k).map (Timer.timerRun cfg n tm) := by
  induction n with
  | zero =>
    intro tm s k h
    show alookup s.timerStates k = _
    cases alookup s.timerStates k <;> rfl
  | succ n ih =>
    intro tm s k h
    rw [runTicks_succ]
    rw [ih (tm + cfg.tickInterval) _ k (by rw [processSession_status]; exact h)]
    rw [alookup_processSession cfg _ s k h]
    cases alookup s.timerStates k with
    | none => rfl
    | some ts => simp [timerRun_succ]

/-- Fired timers stay fired, keep their remaining, and never lose
escalation level under further ticks. -/
theorem timerRun_fired (cfg : Timer.SupervisorConfig) (n : Nat) :
    ∀ (tm : Int) (ts : TimerState), ts.status = .fired →
      (Timer.timerRun cfg n tm ts).status = .fired ∧
      (Timer.timerRun cfg n tm ts).remaining = ts.remaining ∧
      ts.escalationLevel ≤ (Timer.timerRun cfg n tm ts).escalationLevel := by
  induction n with
  | zero => intro tm ts h; exact ⟨h, rfl, le_refl _⟩
  | succ n ih =>
    intro tm ts h
    rw [timerRun_succ]
    set now := tm + cfg.tickInterval
    have htick : (Timer.timerTick cfg now ts).1 =
        (Timer.escOne cfg now ts).1 := by
      rw [timerTick_eq, tickOne_skips cfg now ts (by rw [h]; simp)]
    obtain ⟨e₁, e₂, e₃⟩ := escOne_keeps cfg now ts
    have hst : (Timer.timerTick cfg now ts).1.status = .fired := by
      rw [htick, e₁, h]
    obtain ⟨f₁, f₂, f₃⟩ := ih now (Timer.timerTick cfg now ts).1 hst
    refine ⟨f₁, ?_, ?_⟩
    · rw [f₂, htick, e₂]
    · calc ts.escalationLevel ≤ (Timer.escOne cfg now ts).1.escalationLevel := e₃
        _ = (Timer.timerTick cfg now ts).1.escalationLevel := by rw [htick]
        _ ≤ _ := f₃

/-- The countdown formula: a running timer loses exactly one tick interval
per tick until it fires, then is clamped at 0 with level at least 1. -/
theorem timerRun_formula (cfg : Timer.SupervisorConfig)
    (hΔ : 0 < cfg.tickInterval) (n : Nat) :
    ∀ (tm : Int) (ts : TimerState), ts.status = .running → 0 < ts.remaining →
      (0 < ts.remaining - (n : Int) * cfg.tickInterval →
        (Timer.timerRun cfg n tm ts).status = .running ∧
        (Timer.timerRun cfg n tm ts).remaining =
          ts.remaining - (n : Int) * cfg.tickInterval ∧
        (Timer.timerRun cfg n tm ts).escalationLevel = ts.escalationLevel) ∧
      (ts.remaining - (n : Int) * cfg.tickInterval ≤ 0 →
        (Timer.timerRun cfg n tm ts).status = .fired ∧
        (Timer.timerRun cfg n tm ts).remaining = 0 ∧
        1 ≤ (Timer.timerRun cfg n tm ts).escalationLevel) := by
  induction n with
  | zero =>
    intro tm ts hrun hrem
    constructor
    · intro _
      exact ⟨hrun, by simp [Timer.timerRun], rfl⟩
    · intro habs
      simp only [Nat.cast_zero, zero_mul, sub_zero] at habs
      omega
  | succ n ih =>
    intro tm ts hrun hrem
    have hcast : ((n + 1 : Nat) : Int) * cfg.tickInterval =
        (n : Int) * cfg.tickInterval + cfg.tickInterval := by
      push_cast
      ring
    have hnn : (0 : Int) ≤ (n : Int) * cfg.tickInterval :=
      mul_nonneg (by exact_mod_cast Nat.zero_le n) hΔ.le
    rw [timerRun_succ]
    set now := tm + cfg.tickInterval with hnow
    by_cases hfire : ts.remaining - cfg.tickInterval ≤ 0
    · -- fires on this very tick
      have htick : (Timer.timerTick cfg now ts).1 =
          (Timer.escOne cfg now
            { ts with
                remaining := 0
                status := .fired
                lastNotified := now
                escalationLevel := 1 }).1 := by
        rw [timerTick_eq, tickOne_fires cfg now ts hrun hfire]
      obtain ⟨e₁, e₂, e₃⟩ := escOne_keeps cfg now
        { ts with
            remaining := 0
            status := .fired
            lastNotified := now
            escalationLevel := 1 }
      have hst : (Timer.timerTick cfg now ts).1.status = .fired := by
        rw [htick, e₁]
      obtain ⟨f₁, f₂, f₃⟩ := timerRun_fired cfg n now (Timer.timerTick cfg now ts).1 hst
      constructor
      · intro habs
        rw [hcast] at habs
        linarith
      · intro _
        refine ⟨f₁, ?_, ?_⟩
        · rw [f₂, htick, e₂]
        · calc (1 : Int) ≤ (Timer.escOne cfg now _).1.escalationLevel := e₃
            _ = (Timer.timerTick cfg now ts).1.escalationLevel := by rw [htick]
            _ ≤ _ := f₃
    · -- still counting down after this tick
      push_neg at hfire
      have hkeep := tickOne_keeps_running cfg now ts hrun hfire
      have htick : (Timer.timerTick cfg now ts).1 = (Timer.tickOne cfg now ts).1 := by
        rw [timerTick_eq, escOne_not_fired cfg now (Timer.tickOne cfg now ts).1
          (by rw [hkeep.1]; simp)]
      have hrun₁ : (Timer.timerTick cfg now ts).1.status = .running := by
        rw [htick, hkeep.1]
      have hrem₁ : (Timer.timerTick cfg now ts).1.remaining =
          ts.remaining - cfg.tickInterval := by
        rw [htick, hkeep.2.1]
      have hlvl₁ : (Timer.timerTick cfg now ts).1.escalationLevel =
          ts.escalationLevel := by
        rw [htick, hkeep.2.2.1]
      obtain ⟨ih₁, ih₂⟩ := ih now (Timer.timerTick cfg now ts).1 hrun₁
        (by rw [hrem₁]; exact hfire)
      constructor
      · intro hpos
        rw [hcast] at hpos
        have hpos' : 0 < (Timer.timerTick cfg now ts).1.remaining -
            (n : Int) * cfg.tickInterval := by
          rw [hrem₁]
          linarith
        obtain ⟨g₁, g₂, g₃⟩ := ih₁ hpos'
        refine ⟨g₁, ?_, by rw [g₃, hlvl₁]⟩
        rw [g₂, hrem₁, hcast]
        ring
      · intro hneg
        rw [hcast] at hneg
        have hneg' : (Timer.timerTick cfg now ts).1.remaining -
            (n : Int) * cfg.tickInterval ≤ 0 := by
          rw [hrem₁]
          linarith
        exact ih₂ hneg'

/-- The tick on which a running timer (at escalation level 0) fires: it is
clamped to 0, marked fired, stamped, bumped to level 1, and exactly one
urgent notification with the level-0 message is emitted by that tick
(the escalation pass is silenced by the fresh cooldown stamp). -/
theorem timerTick_fire (cfg : Timer.SupervisorConfig) (now : Int) (ts : TimerState)
    (hcd : 0 < cfg.notifyCooldown) (hnow : now ≠ 0)
    (hrun : ts.status = .running) (hrem : ts.remaining - cfg.tickInterval ≤ 0)
    (hlvl : ts.escalationLevel = 0) :
    Timer.timerTick cfg now ts =
      ({ ts with
           remaining := 0
           status := .fired
           lastNotified := now
           escalationLevel := 1 },
       [{ urgent := true, message := "[Timer] " ++ ts.label ++ " is up." }]) := by
  rw [timerTick_eq, tickOne_fires cfg now ts hrun hrem]
  rw [escOne_quiet cfg now _ rfl ⟨hnow, by dsimp only; omega⟩]
  simp [Timer.escalationMessage, hlvl]

/-! ### Claim C2: supervisor countdown and firing -/

/-- Claim C2: for every active session and every running timer in it (with
positive remaining and escalation level 0, as when freshly started), each
supervisor tick decrements remaining by exactly one tick interval, so after
n ticks remaining equals max(0, initial − n·Δ); on the tick where remaining
reaches ≤ 0 it is clamped to 0, the status becomes fired, that tick emits
exactly one notification — urgent, with the level-0 message — lastNotified
is stamped with the tick time and escalationLevel becomes 1; from then on
the timer stays fired with escalationLevel ≥ 1. -/
theorem c2_supervisor_countdown (cfg : Timer.SupervisorConfig)
    (hΔ : 0 < cfg.tickInterval) (hcd : 0 < cfg.notifyCooldown)
    (s : Session) (hs : s.status = .active) (k : String) (ts : TimerState)
    (hts : alookup s.timerStates k = some ts) (hrun : ts.status = .running)
    (hrem : 0 < ts.remaining) (hlvl : ts.escalationLevel = 0)
    (tm : Int) (n : Nat) :
    (alookup (Timer.runTicks cfg n tm s).1.timerStates k =
      some (Timer.timerRun cfg n tm ts)) ∧
    ((Timer.timerRun cfg n tm ts).remaining =
      max 0 (ts.remaining - (n : Int) * cfg.tickInterval)) ∧
    (∀ now, now ≠ 0 → ts.remaining - cfg.tickInterval ≤ 0 →
      Timer.timerTick cfg now ts =
        ({ ts with
             remaining := 0
             status := .fired
             lastNotified := now
             escalationLevel := 1 },
         [{ urgent := true, message := "[Timer] " ++ ts.label ++ " is up." }])) ∧
    (ts.remaining - (n : Int) * cfg.tickInterval ≤ 0 →
      (Timer.timerRun cfg n tm ts).status = .fired ∧
      (Timer.timerRun cfg n tm ts).remaining = 0 ∧
      1 ≤ (Timer.timerRun cfg n tm ts).escalationLevel) := by
  have hform := timerRun_formula cfg hΔ n tm ts hrun hrem
  refine ⟨?_, ?_, ?_, hform.2⟩
  · rw [alookup_runTicks cfg n tm s k hs, hts]
    rfl
  · by_cases hp : 0 < ts.remaining - (n : Int) * cfg.tickInterval
    · rw [(hform.1 hp).2.1, max_eq_right hp.le]
    · push_neg at hp
      rw [(hform.2 hp).2.1, max_eq_left hp]
  · intro now hnow hfire
    exact timerTick_fire cfg now ts hcd hnow hrun hfire hlvl

/-- Claim C2 witness: five default-config ticks on the about-to-fire sample
session. -/
theorem c2_supervisor_countdown_witness :
    (alookup (Timer.runTicks Timer.defaultConfig 5 0 sampleSessionShort).1.timerStates
      "timer-s1" = some (Timer.timerRun Timer.defaultConfig 5 0 sampleTimerShort)) ∧
    ((Timer.timerRun Timer.defaultConfig 5 0 sampleTimerShort).remaining =
      max 0 (sampleTimerShort.remaining -
        ((5 : Nat) : Int) * Timer.defaultConfig.tickInterval)) ∧
    (∀ now, now ≠ 0 →
      sampleTimerShort.remaining - Timer.defaultConfig.tickInterval ≤ 0 →
      Timer.timerTick Timer.defaultConfig now sampleTimerShort =
        ({ sampleTimerShort with
             remaining := 0
             status := .fired
             lastNotified := now
             escalationLevel := 1 },
         [{ urgent := true,
            message := "[Timer] " ++ sampleTimerShort.label ++ " is up." }])) ∧
    (sampleTimerShort.remaining - ((5 : Nat) : Int) * Timer.defaultConfig.tickInterval ≤ 0 →
      (Timer.timerRun Timer.defaultConfig 5 0 sampleTimerShort).status = .fired ∧
      (Timer.timerRun Timer.defaultConfig 5 0 sampleTimerShort).remaining = 0 ∧
      1 ≤ (Timer.timerRun Timer.defaultConfig 5 0 sampleTimerShort).escalationLevel) :=
  c2_supervisor_countdown Timer.defaultConfig (by decide) (by decide)
    sampleSessionShort rfl "timer-s1" sampleTimerShort (by decide) rfl
    (by decide) rfl 0 5

/-! ### Claim C5: the escalation schedule of a fired timer -/

theorem mapCollect_nil (f : TimerState → TimerState × List Timer.Notification) :
    Timer.mapCollect f [] = ([], []) := rfl

theorem processSession_eq (cfg : Timer.SupervisorConfig) (now : Int)
    (s : Session) (h : s.status = .active) :
    Timer.processSession cfg now s =
      ({ s with
           timerStates := (Timer.mapCollect (Timer.escOne cfg now)
             (Timer.mapCollect (Timer.tickOne cfg now) s.timerStates).1).1 },
       (Timer.mapCollect (Timer.tickOne cfg now) s.timerStates).2 ++
         (Timer.mapCollect (Timer.escOne cfg now)
           (Timer.mapCollect (Timer.tickOne cfg now) s.timerStates).1).2) := by
  unfold Timer.processSession
  rw [if_neg (by simp [h])]

/-- One supervisor tick on a single-timer session is exactly the timer's
full tick. -/
theorem processSession_singleton (cfg : Timer.SupervisorConfig) (now : Int)
    (s : Session) (k : String) (t : TimerState)
    (hs : s.status = .active) (hts : s.timerStates = [(k, t)]) :
    Timer.processSession cfg now s =
      ({ s with timerStates := [(k, (Timer.timerTick cfg now t).1)] },
       (Timer.timerTick cfg now t).2) := by
  rw [processSession_eq cfg now s hs, hts, timerTick_eq]
  rw [mapCollect_cons, mapCollect_nil]
  dsimp only
  rw [mapCollect_cons, mapCollect_nil]
  dsimp only
  simp

theorem session_eta_timerStates (s : Session)
    (l : List (String × TimerState)) (h : s.timerStates = l) :
    { s with timerStates := l } = s := by
  rw [← h]

/-- A supervisor tick that leaves the single timer untouched and silent
leaves the session untouched and silent. -/
theorem processSession_singleton_quiet (cfg : Timer.SupervisorConfig)
    (now : Int) (s : Session) (k : String) (t : TimerState)
    (hs : s.status = .active) (hts : s.timerStates = [(k, t)])
    (hquiet : Timer.timerTick cfg now t = (t, [])) :
    Timer.processSession cfg now s = (s, []) := by
  rw [processSession_singleton cfg now s k t hs hts, hquiet]
  rw [session_eta_timerStates s _ hts]

/-- While a fired timer's cooldown window is open, a run of ticks does
nothing and emits nothing. -/
theorem runTicks_fired_window (m : Nat) :
    ∀ (tm : Int) (s : Session) (k : String) (t : TimerState),
      s.status = .active → s.timerStates = [(k, t)] → t.status = .fired →
      t.lastNotified ≠ 0 → tm + (m : Int) - t.lastNotified < 15 →
      Timer.runTicks Timer.defaultConfig m tm s = (s, []) := by
  induction m with
  | zero => intro tm s k t _ _ _ _ _; rfl
  | succ m ih =>
    intro tm s k t hs hts hf hLN hwin
    rw [runTicks_succ]
    have hstep : Timer.processSession Timer.defaultConfig
        (tm + Timer.defaultConfig.tickInterval) s = (s, []) := by
      refine processSession_singleton_quiet _ _ s k t hs hts ?_
      rw [timerTick_eq,
        tickOne_skips Timer.defaultConfig (tm + Timer.defaultConfig.tickInterval)
          t (by rw [hf]; simp)]
      dsimp only
      rw [escOne_quiet Timer.defaultConfig (tm + Timer.defaultConfig.tickInterval)
        t hf ⟨hLN, by
          show tm + 1 - t.lastNotified < 15
          push_cast at hwin
          omega⟩]
      rfl
    rw [hstep]
    rw [ih (tm + Timer.defaultConfig.tickInterval) s k t hs hts hf hLN (by
      show tm + 1 + (m : Int) - t.lastNotified < 15
      push_cast at hwin
      omega)]
    rfl

/-- Once the escalation level exceeds the cap, ticks never touch the timer
or emit anything again. -/
theorem runTicks_capped (m : Nat) :
    ∀ (tm : Int) (s : Session) (k : String) (t : TimerState),
      s.status = .active → s.timerStates = [(k, t)] → t.status = .fired →
      Timer.defaultConfig.maxEscalation < t.escalationLevel →
      Timer.runTicks Timer.defaultConfig m tm s = (s, []) := by
  induction m with
  | zero => intro tm s k t _ _ _ _; rfl
  | succ m ih =>
    intro tm s k t hs hts hf hcap
    rw [runTicks_succ]
    have hstep : Timer.processSession Timer.defaultConfig
        (tm + Timer.defaultConfig.tickInterval) s = (s, []) := by
      refine processSession_singleton_quiet _ _ s k t hs hts ?_
      rw [timerTick_eq,
        tickOne_skips Timer.defaultConfig (tm + Timer.defaultConfig.tickInterval)
          t (by rw [hf]; simp)]
      dsimp only
      rw [escOne_capped Timer.defaultConfig (tm + Timer.defaultConfig.tickInterval)
        t hf hcap]
      rfl
    rw [hstep]
    rw [ih (tm + Timer.defaultConfig.tickInterval) s k t hs hts hf hcap]
    rfl

/-- The single tick on which an about-to-fire timer fires, at session
level. -/
theorem runTick_fire_session (tm : Int) (s : Session) (k : String)
    (t : TimerState) (hs : s.status = .active) (hts : s.timerStates = [(k, t)])
    (hrun : t.status = .running) (hrem : t.remaining - 1 ≤ 0)
    (hlvl : t.escalationLevel = 0) (hnow : tm + 1 ≠ 0) :
    Timer.runTicks Timer.defaultConfig 1 tm s =
      ({ s with timerStates := [(k,
          { t with
              remaining := 0
              status := .fired
              lastNotified := tm + 1
              escalationLevel := 1 })] },
       [(tm + 1, { urgent := true, message := "[Timer] " ++ t.label ++ " is up." })]) := by
  have h1 : Timer.runTicks Timer.defaultConfig 1 tm s =
      Timer.runTicks Timer.defaultConfig (0 + 1) tm s := rfl
  rw [h1, runTicks_succ,
    processSession_singleton Timer.defaultConfig
      (tm + Timer.defaultConfig.tickInterval) s k t hs hts,
    timerTick_fire Timer.defaultConfig (tm + Timer.defaultConfig.tickInterval)
      t (by decide) hnow hrun hrem hlvl]
  rfl

/-- A single escalation tick (cooldown expired, level within the cap), at
session level. -/
theorem runTick_esc_session (tm : Int) (s : Session) (k : String)
    (t : TimerState) (hs : s.status = .active) (hts : s.timerStates = [(k, t)])
    (hf : t.status = .fired) (hcap : t.escalationLevel ≤ 3)
    (hLN : t.lastNotified ≠ 0) (hcd : 15 ≤ tm + 1 - t.lastNotified) :
    Timer.runTicks Timer.defaultConfig 1 tm s =
      ({ s with timerStates := [(k,
          { t with
              lastNotified := tm + 1
              escalationLevel := t.escalationLevel + 1 })] },
       [(tm + 1, { urgent := false, message := Timer.escalationMessage t })]) := by
  have h1 : Timer.runTicks Timer.defaultConfig 1 tm s =
      Timer.runTicks Timer.defaultConfig (0 + 1) tm s := rfl
  rw [h1, runTicks_succ,
    processSession_singleton Timer.defaultConfig
      (tm + Timer.defaultConfig.tickInterval) s k t hs hts]
  have htick : Timer.timerTick Timer.defaultConfig
      (tm + Timer.defaultConfig.tickInterval) t =
      ({ t with
           lastNotified := tm + 1
           escalationLevel := t.escalationLevel + 1 },
       [{ urgent := false, message := Timer.escalationMessage t }]) := by
    rw [timerTick_eq,
      tickOne_skips Timer.defaultConfig (tm + Timer.defaultConfig.tickInterval)
        t (by rw [hf]; simp)]
    dsimp only
    rw [escOne_emits Timer.defaultConfig (tm + Timer.defaultConfig.tickInterval)
      t hf
      (by show ¬t.escalationLevel > 3; omega)
      (by
        show ¬(t.lastNotified ≠ 0 ∧ tm + 1 - t.lastNotified < 15)
        push_neg
        intro _
        omega)]
    rfl
  rw [htick]
  rfl

/-- Runs compose: `a + b` ticks are `a` ticks followed by `b` ticks
starting `a` tick intervals later. -/
theorem runTicks_add (cfg : Timer.SupervisorConfig) (a : Nat) :
    ∀ (b : Nat) (tm : Int) (s : Session),
      Timer.runTicks cfg (a + b) tm s =
        ((Timer.runTicks cfg b (tm + (a : Int) * cfg.tickInterval)
            (Timer.runTicks cfg a tm s).1).1,
         (Timer.runTicks cfg a tm s).2 ++
           (Timer.runTicks cfg b (tm + (a : Int) * cfg.tickInterval)
             (Timer.runTicks cfg a tm s).1).2) := by
  induction a with
  | zero =>
    intro b tm s
    simp only [Nat.zero_add, Nat.cast_zero, zero_mul, add_zero]
    rfl
  | succ a ih =>
    intro b tm s
    have hn : a + 1 + b = (a + b) + 1 := by omega
    rw [hn, runTicks_succ cfg (a + b) tm s, runTicks_succ cfg a tm s,
      ih b (tm + cfg.tickInterval)
        (Timer.processSession cfg (tm + cfg.tickInterval) s).1]
    have harith : tm + ((a : Int) + 1) * cfg.tickInterval =
        tm + cfg.tickInterval + (a : Int) * cfg.tickInterval := by ring
    dsimp only
    push_cast
    rw [harith, List.append_assoc]

/-- Chaining form of `runTicks_add`. -/
theorem runTicks_chain (cfg : Timer.SupervisorConfig) (a b : Nat) (tm : Int)
    (s s₁ s₂ : Session) (ns₁ ns₂ : List (Int × Timer.Notification))
    (h₁ : Timer.runTicks cfg a tm s = (s₁, ns₁))
    (h₂ : Timer.runTicks cfg b (tm + (a : Int) * cfg.tickInterval) s₁ = (s₂, ns₂)) :
    Timer.runTicks cfg (a + b) tm s = (s₂, ns₁ ++ ns₂) := by
  rw [runTicks_add cfg a b tm s, h₁]
  dsimp only
  rw [h₂]

/-- One full escalation cycle: from a fired timer freshly stamped at time
`p`, fourteen quiet ticks ride out the cooldown and the fifteenth emits the
level's escalation message, bumps the level and restamps `lastNotified`. -/
theorem runTicks_esc_cycle (p : Int) (s : Session) (k : String)
    (t : TimerState) (hs : s.status = .active) (hts : s.timerStates = [(k, t)])
    (hf : t.status = .fired) (hcap : t.escalationLevel ≤ 3)
    (hLN : t.lastNotified = p) (hp : p ≠ 0) :
    Timer.runTicks Timer.defaultConfig 15 p s =
      ({ s with timerStates := [(k,
          { t with
              lastNotified := p + 15
              escalationLevel := t.escalationLevel + 1 })] },
       [(p + 15, { urgent := false, message := Timer.escalationMessage t })]) := by
  have h₁ : Timer.runTicks Timer.defaultConfig 14 p s = (s, []) :=
    runTicks_fired_window 14 p s k t hs hts hf
      (by rw [hLN]; exact hp) (by rw [hLN]; push_cast; omega)
  have h₂ := runTick_esc_session (p + 14) s k t hs hts hf hcap
    (by rw [hLN]; exact hp) (by rw [hLN]; omega)
  have hc := runTicks_chain Timer.defaultConfig 14 1 p s _ _ _ _ h₁ h₂
  have h15 : (15 : Nat) = 14 + 1 := rfl
  rw [h15, hc, show p + 14 + 1 = p + 15 from by ring]
  rfl

set_option maxHeartbeats 1600000 in
/-- Claim C5: a timer that fires under the default settings (tick 1 s,
cooldown 15 s, maxEscalation 3) produces exactly four notifications in
total — the urgent firing notification, then three escalations spaced
exactly one cooldown apart — over any supervision window of at least 46
ticks; afterwards the timer sits at escalation level 4, and any timer whose
level exceeds maxEscalation is never touched and never notified again by a
supervisor tick. -/
theorem c5_escalation_cap (t0 : Int) (ht0 : 0 ≤ t0) (m : Nat)
    (s : Session) (k : String) (t : TimerState)
    (hs : s.status = .active) (hts : s.timerStates = [(k, t)])
    (hrun : t.status = .running) (hrem : 0 < t.remaining)
    (hrem1 : t.remaining ≤ 1) (hlvl : t.escalationLevel = 0) :
    (Timer.runTicks Timer.defaultConfig (46 + m) t0 s).2 =
      [(t0 + 1, { urgent := true, message := "[Timer] " ++ t.label ++ " is up." }),
       (t0 + 16, { urgent := false, message := "[Timer] " ++ t.label ++ " -- check it now." }),
       (t0 + 31, { urgent := false, message := "[Timer] " ++ t.label ++ ". Now." }),
       (t0 + 46, { urgent := false, message := "[Timer] " ++ t.label ++ "." })] ∧
    (Timer.runTicks Timer.defaultConfig (46 + m) t0 s).2.length = 4 ∧
    (Timer.runTicks Timer.defaultConfig (46 + m) t0 s).1.timerStates =
      [(k, { t with
               remaining := 0
               status := .fired
               lastNotified := t0 + 46
               escalationLevel := 4 })] ∧
    (∀ (u : TimerState), u.status = .fired →
      Timer.defaultConfig.maxEscalation < u.escalationLevel →
      ∀ now, Timer.timerTick Timer.defaultConfig now u = (u, [])) := by
  have e₁ : Timer.runTicks Timer.defaultConfig 1 t0 s =
      ({ s with timerStates := [(k,
          { t with
              remaining := 0
              status := .fired
              lastNotified := t0 + 1
              escalationLevel := 1 })] },
       [(t0 + 1, { urgent := true, message := "[Timer] " ++ t.label ++ " is up." })]) :=
    runTick_fire_session t0 s k t hs hts hrun (by omega) hlvl (by omega)
  have e₂ : Timer.runTicks Timer.defaultConfig 15 (t0 + 1)
      ({ s with timerStates := [(k,
          { t with
              remaining := 0
              status := .fired
              lastNotified := t0 + 1
              escalationLevel := 1 })] }) =
      ({ s with timerStates := [(k,
          { t with
              remaining := 0
              status := .fired
              lastNotified := t0 + 16
              escalationLevel := 2 })] },
       [(t0 + 16, { urgent := false, message := "[Timer] " ++ t.label ++ " -- check it now." })]) := by
    have h := runTicks_esc_cycle (t0 + 1)
      ({ s with timerStates := [(k,
          { t with
              remaining := 0
              status := .fired
              lastNotified := t0 + 1
              escalationLevel := 1 })] }) k
      ({ t with
           remaining := 0
           status := .fired
           lastNotified := t0 + 1
           escalationLevel := 1 })
      hs rfl rfl (by show (1 : Int) ≤ 3; norm_num) rfl (by omega)
    rw [show t0 + 1 + 15 = t0 + 16 from by ring] at h
    exact h
  have e₃ : Timer.runTicks Timer.defaultConfig 15 (t0 + 16)
      ({ s with timerStates := [(k,
          { t with
              remaining := 0
              status := .fired
              lastNotified := t0 + 16
              escalationLevel := 2 })] }) =
      ({ s with timerStates := [(k,
          { t with
              remaining := 0
              status := .fired
              lastNotified := t0 + 31
              escalationLevel := 3 })] },
       [(t0 + 31, { urgent := false, message := "[Timer] " ++ t.label ++ ". Now." })]) := by
    have h := runTicks_esc_cycle (t0 + 16)
      ({ s with timerStates := [(k,
          { t with
              remaining := 0
              status := .fired
              lastNotified := t0 + 16
              escalationLevel := 2 })] }) k
      ({ t with
           remaining := 0
           status := .fired
           lastNotified := t0 + 16
           escalationLevel := 2 })
      hs rfl rfl (by show (2 : Int) ≤ 3; norm_num) rfl (by omega)
    rw [show t0 + 16 + 15 = t0 + 31 from by ring] at h
    exact h
  have e₄ : Timer.runTicks Timer.defaultConfig 15 (t0 + 31)
      ({ s with timerStates := [(k,
          { t with
              remaining := 0
              status := .fired
              lastNotified := t0 + 31
              escalationLevel := 3 })] }) =
      ({ s with timerStates := [(k,
          { t with
              remaining := 0
              status := .fired
              lastNotified := t0 + 46
              escalationLevel := 4 })] },
       [(t0 + 46, { urgent := false, message := "[Timer] " ++ t.label ++ "." })]) := by
    have h := runTicks_esc_cycle (t0 + 31)
      ({ s with timerStates := [(k,
          { t with
              remaining := 0
              status := .fired
              lastNotified := t0 + 31
              escalationLevel := 3 })] }) k
      ({ t with
           remaining := 0
           status := .fired
           lastNotified := t0 + 31
           escalationLevel := 3 })
      hs rfl rfl (by show (3 : Int) ≤ 3; norm_num) rfl (by omega)
    rw [show t0 + 31 + 15 = t0 + 46 from by ring] at h
    exact h
  have e₅ : Timer.runTicks Timer.defaultConfig m (t0 + 46)
      ({ s with timerStates := [(k,
          { t with
              remaining := 0
              status := .fired
              lastNotified := t0 + 46
              escalationLevel := 4 })] }) =
      ({ s with timerStates := [(k,
          { t with
              remaining := 0
              status := .fired
              lastNotified := t0 + 46
              escalationLevel := 4 })] }, []) :=
    runTicks_capped m (t0 + 46)
      ({ s with timerStates := [(k,
          { t with
              remaining := 0
              status := .fired
              lastNotified := t0 + 46
              escalationLevel := 4 })] }) k
      ({ t with
           remaining := 0
           status := .fired
           lastNotified := t0 + 46
           escalationLevel := 4 })
      hs rfl rfl (by show (3 : Int) < 4; norm_num)
  have c₁ := runTicks_chain Timer.defaultConfig 1 15 t0 s _ _ _ _ e₁ e₂
  have c₂ := runTicks_chain Timer.defaultConfig (1 + 15) 15 t0 s _ _ _ _ c₁ e₃
  have c₃ := runTicks_chain Timer.defaultConfig (1 + 15 + 15) 15 t0 s _ _ _ _ c₂ e₄
  have c₄ := runTicks_chain Timer.defaultConfig (1 + 15 + 15 + 15) m t0 s _ _ _ _ c₃ e₅
  have hfull : Timer.runTicks Timer.defaultConfig (46 + m) t0 s =
      ({ s with timerStates := [(k,
          { t with
              remaining := 0
              status := .fired
              lastNotified := t0 + 46
              escalationLevel := 4 })] },
       [(t0 + 1, { urgent := true, message := "[Timer] " ++ t.label ++ " is up." }),
        (t0 + 16, { urgent := false, message := "[Timer] " ++ t.label ++ " -- check it now." }),
        (t0 + 31, { urgent := false, message := "[Timer] " ++ t.label ++ ". Now." }),
        (t0 + 46, { urgent := false, message := "[Timer] " ++ t.label ++ "." })]) := by
    rw [show 46 + m = 1 + 15 + 15 + 15 + m from by omega, c₄]
    simp
  refine ⟨by rw [hfull], by rw [hfull]; rfl, by rw [hfull], ?_⟩
  intro u hfu hcapu now
  rw [timerTick_eq,
    tickOne_skips Timer.defaultConfig now u (by rw [hfu]; simp)]
  dsimp only
  rw [escOne_capped Timer.defaultConfig now u hfu hcapu]
  rfl

/-- Claim C5 witness: the about-to-fire sample session supervised for 46
default ticks from time 0 emits exactly the four scheduled notifications
and parks the timer above the escalation cap. -/
theorem c5_escalation_cap_witness :
    (Timer.runTicks Timer.defaultConfig 46 0 sampleSessionShort).2 =
      [(1, { urgent := true, message := "[Timer] " ++ sampleTimerShort.label ++ " is up." }),
       (16, { urgent := false, message := "[Timer] " ++ sampleTimerShort.label ++ " -- check it now." }),
       (31, { urgent := false, message := "[Timer] " ++ sampleTimerShort.label ++ ". Now." }),
       (46, { urgent := false, message := "[Timer] " ++ sampleTimerShort.label ++ "." })] ∧
    (Timer.runTicks Timer.defaultConfig 46 0 sampleSessionShort).2.length = 4 ∧
    (Timer.runTicks Timer.defaultConfig 46 0 sampleSessionShort).1.timerStates =
      [("timer-s1", { sampleTimerShort with
           remaining := 0
           status := .fired
           lastNotified := 46
           escalationLevel := 4 })] ∧
    (∀ (u : TimerState), u.status = .fired →
      Timer.defaultConfig.maxEscalation < u.escalationLevel →
      ∀ now, Timer.timerTick Timer.defaultConfig now u = (u, [])) :=
  c5_escalation_cap 0 (by decide) 0 sampleSessionShort "timer-s1"
    sampleTimerShort rfl rfl rfl (by decide) (by decide) rfl

/-! ### Claim C6: escalation message table -/

/-- Claim C6, counterexample: at escalation level 1 the code's message uses
an ASCII double hyphen, not the em-dash of the spec's table, so the claimed
template "[Timer] \x7blabel\x7d — check it now." is not produced. -/
theorem c6_counterexample :
    Timer.escalationMessage
      { id := "timer-s1", stepId := "s1", label := "pasta", duration := 480,
        remaining := 0, status := .fired, lastNotified := 100,
        lastRemindedAt := 0, warnedAlmost := false, escalationLevel := 1 } ≠
      "[Timer] pasta — check it now." := by
  decide

/-- Claim C6 (amended): the escalation message emitted for a timer at
escalation level L is the table template with the label substituted:
level 0 is "[Timer] \x7blabel\x7d is up.", level 1 is
"[Timer] \x7blabel\x7d -- check it now." (ASCII double hyphen), level 2 is
"[Timer] \x7blabel\x7d. Now.", and every level at least 3 is
"[Timer] \x7blabel\x7d.". -/
theorem c6_escalation_message_table (ts : TimerState) :
    (ts.escalationLevel = 0 →
      Timer.escalationMessage ts = "[Timer] " ++ ts.label ++ " is up.") ∧
    (ts.escalationLevel = 1 →
      Timer.escalationMessage ts = "[Timer] " ++ ts.label ++ " -- check it now.") ∧
    (ts.escalationLevel = 2 →
      Timer.escalationMessage ts = "[Timer] " ++ ts.label ++ ". Now.") ∧
    (3 ≤ ts.escalationLevel →
      Timer.escalationMessage ts = "[Timer] " ++ ts.label ++ ".") := by
  refine ⟨fun h => by simp [Timer.escalationMessage, h],
          fun h => by simp [Timer.escalationMessage, h],
          fun h => by simp [Timer.escalationMessage, h],
          fun h => ?_⟩
  have h0 : ts.escalationLevel ≠ 0 := by omega
  have h1 : ts.escalationLevel ≠ 1 := by omega
  have h2 : ts.escalationLevel ≠ 2 := by omega
  simp [Timer.escalationMessage, h0, h1, h2]

/-- Claim C6 witness: the four templates evaluated at concrete timers of
escalation levels 0, 1, 2 and 3. -/
theorem c6_escalation_message_table_witness :
    Timer.escalationMessage
      { id := "t", stepId := "s", label := "x", duration := 5, remaining := 0,
        status := .fired, lastNotified := 1, lastRemindedAt := 0,
        warnedAlmost := false, escalationLevel := 0 } = "[Timer] x is up." ∧
    Timer.escalationMessage
      { id := "t", stepId := "s", label := "x", duration := 5, remaining := 0,
        status := .fired, lastNotified := 1, lastRemindedAt := 0,
        warnedAlmost := false, escalationLevel := 1 } = "[Timer] x -- check it now." ∧
    Timer.escalationMessage
      { id := "t", stepId := "s", label := "x", duration := 5, remaining := 0,
        status := .fired, lastNotified := 1, lastRemindedAt := 0,
        warnedAlmost := false, escalationLevel := 2 } = "[Timer] x. Now." ∧
    Timer.escalationMessage
      { id := "t", stepId := "s", label := "x", duration := 5, remaining := 0,
        status := .fired, lastNotified := 1, lastRemindedAt := 0,
        warnedAlmost := false, escalationLevel := 3 } = "[Timer] x." :=
  ⟨(c6_escalation_message_table _).1 rfl,
   (c6_escalation_message_table _).2.1 rfl,
   (c6_escalation_message_table _).2.2.1 rfl,
   (c6_escalation_message_table _).2.2.2 (by decide)⟩

/-! ### Claim C9: resume on a non-paused session -/

/-- Claim C9: for every stored session whose status is not paused (active,
completed or abandoned), resume fails with the `ErrSessionPaused` sentinel
(message "session is paused") — a distinct error kind from
session-not-active — and returns the session unchanged. -/
theorem c9_resume_requires_paused (s : Session) (now : Int)
    (h : s.status = .active ∨ s.status = .completed ∨ s.status = .abandoned) :
    Engine.resume s now = (s, some .sessionPaused) ∧
    errMessage .sessionPaused = "session is paused" ∧
    EngErr.sessionPaused ≠ EngErr.sessionNotActive := by
  have hs : s.status ≠ .paused := by rcases h with h | h | h <;> simp [h]
  exact ⟨by simp [Engine.resume, hs], rfl, by decide⟩

/-! ### Claim C10: non-positive 1-based step indices in the applier -/

/-- Claim C10: for every add_step action whose 1-based step index is zero or
negative, the applier does not fail: it appends the new step at the end
exactly as it does for a past-end index, and afterwards every step's order
field equals its position index + 1; update_step and remove_step instead
fail with an out-of-range error on those same non-positive indices. -/
theorem c10_nonpositive_step_index (r : Recipe) (act : Gpt.Action)
    (h : act.stepIndex ≤ 0) :
    Gpt.addStep r act = .ok { r with steps := Gpt.renumber (r.steps ++
      [{ id := "step-" ++ toString (r.steps.length + 1)
         order := (r.steps.length : Int) + 1
         instruction := act.instruction
         duration := 0
         conditions := []
         parallelHints := []
         timerConfig := none }]) } ∧
    (∀ j : Int, (r.steps.length : Int) + 1 < j →
      Gpt.addStep r { stepIndex := j, instruction := act.instruction } =
        Gpt.addStep r act) ∧
    (∀ r₂, Gpt.addStep r act = .ok r₂ →
      ∀ (i : Nat) (st : Step), r₂.steps.get? i = some st →
        st.order = (i : Int) + 1) ∧
    Gpt.removeStep r act = .error ("step " ++ toString act.stepIndex ++
      " out of range (1-" ++ toString r.steps.length ++ ")") ∧
    Gpt.updateStep r act = .error ("step " ++ toString act.stepIndex ++
      " out of range (1-" ++ toString r.steps.length ++ ")") := by
  have hneg : act.stepIndex - 1 < 0 := by omega
  have hclamp : (act.stepIndex - 1 < 0 ∨ (r.steps.length : Int) < act.stepIndex - 1) := Or.inl hneg
  refine ⟨?_, ?_, ?_, ?_, ?_⟩
  · simp [Gpt.addStep, hneg]
  · intro j hj
    have hj₁ : ¬(j - 1 < 0) := by omega
    have hj₂ : (r.steps.length : Int) < j - 1 := by omega
    have hj₃ : j - 1 > (r.steps.length : Int) := hj₂
    simp [Gpt.addStep, hneg, hj₁, hj₃]
  · intro r₂ hr₂ i st hst
    have hr : r₂.steps = Gpt.renumber (r.steps.take r.steps.length ++
        [{ id := "step-" ++ toString (r.steps.length + 1)
           order := (r.steps.length : Int) + 1
           instruction := act.instruction
           duration := 0
           conditions := []
           parallelHints := []
           timerConfig := none }] ++ r.steps.drop r.steps.length) := by
      simp only [Gpt.addStep, if_pos (Or.inl hneg)] at hr₂
      cases hr₂
      rfl
    rw [hr] at hst
    exact renumber_get? _ i st hst
  · have : act.stepIndex - 1 < 0 ∨ (r.steps.length : Int) ≤ act.stepIndex - 1 :=
      Or.inl hneg
    simp [Gpt.removeStep, hneg]
  · simp [Gpt.updateStep, hneg]

/-- Claim C10 witness: add_step, remove_step and update_step applied with
step index 0 to a one-step recipe. -/
theorem c10_nonpositive_step_index_witness :
    Gpt.addStep
      { id := "r1", name := "Pasta", description := "", servings := 2,
        ingredients := [],
        steps := [{ id := "s1", order := 1, instruction := "Boil water.",
                    duration := 0, conditions := [], parallelHints := [],
                    timerConfig := none }],
        tags := [], version := 1 }
      { stepIndex := 0, instruction := "Serve." } =
      .ok { id := "r1", name := "Pasta", description := "", servings := 2,
            ingredients := [],
            steps := Gpt.renumber
              [{ id := "s1", order := 1, instruction := "Boil water.",
                 duration := 0, conditions := [], parallelHints := [],
                 timerConfig := none },
               { id := "step-2", order := 2, instruction := "Serve.",
                 duration := 0, conditions := [], parallelHints := [],
                 timerConfig := none }],
            tags := [], version := 1 } ∧
    Gpt.removeStep
      { id := "r1", name := "Pasta", description := "", servings := 2,
        ingredients := [],
        steps := [{ id := "s1", order := 1, instruction := "Boil water.",
                    duration := 0, conditions := [], parallelHints := [],
                    timerConfig := none }],
        tags := [], version := 1 }
      { stepIndex := 0, instruction := "Serve." } =
      .error "step 0 out of range (1-1)" := by
  have h := c10_nonpositive_step_index
    { id := "r1", name := "Pasta", description := "", servings := 2,
      ingredients := [],
      steps := [{ id := "s1", order := 1, instruction := "Boil water.",
                  duration := 0, conditions := [], parallelHints := [],
                  timerConfig := none }],
      tags := [], version := 1 }
    { stepIndex := 0, instruction := "Serve." } (by decide)
  exact ⟨h.1, h.2.2.2.1⟩

/-! ### Claim C8: startSession panics on an empty step list -/

/-- Claim C8: startSession is panic-free only when the recipe has at least
one step: with an empty step list it dereferences the missing step-state
entry and indexes the empty step slice (modelled as `none`); for every
recipe with at least one step it succeeds, with step 0 active
(startedAt = now) and the session active at index 0. -/
theorem c8_startSession_needs_steps (r : Recipe) (dflt : Int) (id : String)
    (servings now : Int) :
    (r.steps = [] → Engine.startSession r dflt id servings now = none) ∧
    (r.steps ≠ [] → ∃ s, Engine.startSession r dflt id servings now = some s ∧
      s.status = .active ∧ s.currentStepIndex = 0 ∧
      alookup s.stepStates 0 =
        some { status := .active, startedAt := now, completedAt := 0 }) := by
  constructor
  · intro h
    simp [Engine.startSession, h, alookup]
  · intro h
    obtain ⟨st0, rest, hsteps⟩ := List.exists_cons_of_ne_nil h
    rw [Engine.startSession, hsteps]
    simp only [List.length_cons, List.range_succ_eq_map, List.map_cons, alookup,
      if_pos rfl, List.get?_cons_zero]
    refine ⟨_, rfl, ?_, ?_, ?_⟩
    · rw [maybeStartTimer_status]
    · rw [maybeStartTimer_currentStepIndex]
    · rw [maybeStartTimer_stepStates]
      simp [ainsert, alookup]

/-- Claim C8 witness: a recipe with no steps panics; a one-step recipe
starts with step 0 active. -/
theorem c8_startSession_needs_steps_witness :
    Engine.startSession
      { id := "r0", name := "Empty", description := "", servings := 2,
        ingredients := [], steps := [], tags := [], version := 1 }
      2 "sess0" 2 100 = none ∧
    ∃ s, Engine.startSession
      { id := "r1", name := "Pasta", description := "", servings := 2,
        ingredients := [],
        steps := [{ id := "s1", order := 1, instruction := "Boil water.",
                    duration := 0, conditions := [], parallelHints := [],
                    timerConfig := none }],
        tags := [], version := 1 }
      2 "sess1" 2 100 = some s ∧
      s.status = .active ∧ s.currentStepIndex = 0 ∧
      alookup s.stepStates 0 =
        some { status := .active, startedAt := 100, completedAt := 0 } :=
  ⟨(c8_startSession_needs_steps _ 2 "sess0" 2 100).1 rfl,
   (c8_startSession_needs_steps _ 2 "sess1" 2 100).2 (by decide)⟩

/-- Claim C9 witness: resume on a concrete active session. -/
theorem c9_resume_requires_paused_witness :
    Engine.resume
      { id := "sess1", recipeId := "r1", recipeName := "Pasta", servings := 2,
        currentStepIndex := 0, stepStates := [], timerStates := [],
        status := .active, startedAt := 100, updatedAt := 100 } 130 =
      ({ id := "sess1", recipeId := "r1", recipeName := "Pasta", servings := 2,
         currentStepIndex := 0, stepStates := [], timerStates := [],
         status := .active, startedAt := 100, updatedAt := 100 },
       some .sessionPaused) ∧
    errMessage .sessionPaused = "session is paused" ∧
    EngErr.sessionPaused ≠ EngErr.sessionNotActive :=
  c9_resume_requires_paused _ 130 (Or.inl rfl)

end OttoSpec
